import Mathlib

/-
  Verification of the Monte-Carlo simulation driver of OPGEEv4
  (opgee/mcs/simulation.py) against its natural-language specification.

  The Python source is shallowly embedded: pandas cells become an inductive
  Cell type (empty string or rational number, with Python equality semantics),
  frozen random variables become a tagged inductive, the process-wide
  Distribution registry becomes an association list with dict-update
  semantics, and the filesystem becomes an explicit map from paths to typed
  file contents.  External collaborators that are not part of the source
  (the XML model parser, the LHS sampler, the per-field model evaluator)
  are passed in as function parameters, as the spec treats them as opaque.
-/

namespace OpgeeMcs

/-- A pandas cell after fillna with an empty string: either the empty string
or a numeric value.  Rationals stand in for Python floats. -/
inductive Cell where
  | empty : Cell
  | num : ℚ → Cell
  deriving DecidableEq, Repr

/-- A frozen random variable, as produced by the get_frozen_rv calls in
read_distributions.  The distribution math itself is opaque per the spec,
so this is pure tagged data recording the constructor and its arguments. -/
inductive RV where
  | weighted_binary (prob_of_one : Cell)
  | uniform (min max : Cell)
  | triangle (min mode max : Cell)
  | normal (mean stdev : Cell)
  | truncated_normal (mean stdev low high : Cell)
  | lognormal (logmean logstdev : Cell)
  | truncated_lognormal (logmean logstdev low high : Cell)
  | empirical (pathname : String) (colname : String)
  deriving DecidableEq, Repr

/-- One row of the parameter_distributions.csv table, with the columns
read by read_distributions. -/
structure DistroRow where
  distribution_type : String
  variable_name : String
  low_bound : Cell
  high_bound : Cell
  mean : Cell
  SD : Cell
  default_value : Cell
  prob_of_yes : Cell
  pathname : String
  deriving DecidableEq, Repr

/-- The exception taxonomy of the source: McsUserError, McsSystemError,
CommandlineError, OpgeeException, plus raw Python runtime errors. -/
inductive Err where
  | user (msg : String)
  | system (msg : String)
  | commandline (msg : String)
  | opgee (msg : String)
  | pythonTypeError (msg : String)
  deriving DecidableEq, Repr

deriving instance DecidableEq for Except

/-- Message carried by an exception (str(e) in the source). -/
def errMsg : Err → String
  | .user m => m
  | .system m => m
  | .commandline m => m
  | .opgee m => m
  | .pythonTypeError m => m

/-- Split a character list at its first dot: the part before it and the
part after it, or none when there is no dot. -/
def breakAtDot : List Char → Option (List Char × List Char)
  | [] => none
  | c :: rest =>
    if c = '.' then some ([], rest)
    else
      match breakAtDot rest with
      | none => none
      | some (pre, post) => some (c :: pre, post)

/-- Modelled from the spec: core.split_attr_name (opgee/core.py is not in
src/).  A two-part name "CLASS.ATTR" splits into a class and an attribute;
a bare name has no class part; anything else raises an OpgeeException. -/
def split_attr_name (name : String) : Except Err (Option String × String) :=
  match breakAtDot name.data with
  | none => .ok (none, name)
  | some (pre, post) =>
    match breakAtDot post with
    | none => .ok (some (String.mk pre), String.mk post)
    | some _ => .error (.opgee ("can't split attribute name " ++ name))

/-- Association-list lookup, the embedding of Python dict.get. -/
def alookup {κ α : Type} [DecidableEq κ] : List (κ × α) → κ → Option α
  | [], _ => none
  | p :: rest, n => if n = p.1 then some p.2 else alookup rest n

/-- Python dict insertion: overwrite in place if the key is present
(dicts keep the original insertion position), append otherwise. -/
def dictInsert {κ α : Type} [DecidableEq κ] (m : List (κ × α)) (k : κ) (v : α) :
    List (κ × α) :=
  if m.any (fun p => p.1 = k) then
    m.map (fun p => if p.1 = k then (k, v) else p)
  else
    m ++ [(k, v)]

/-- In-place update of the value stored under a key (mutation of the
object held in a Python dict). -/
def dictUpdate {κ α : Type} [DecidableEq κ] (m : List (κ × α)) (k : κ) (f : α → α) :
    List (κ × α) :=
  m.map (fun p => if p.1 = k then (p.1, f p.2) else p)

/-- A Distribution instance (simulation.py lines 125-153): the qualified
name, its split into class and attribute parts, and the frozen rv. -/
structure Distribution where
  full_name : String
  class_name : Option String
  attr_name : String
  rv : RV
  deriving DecidableEq, Repr

/-- Distribution.__init__ minus the registration side effect: splits the
qualified name, raising McsUserError on a malformed name. -/
def Distribution.make (full_name : String) (rv : RV) : Except Err Distribution :=
  match split_attr_name full_name with
  | .ok (c, a) => .ok { full_name := full_name, class_name := c, attr_name := a, rv := rv }
  | .error _ => .error (.user ("attribute name format is 'ATTR' (same as 'Field.ATTR) or " ++
      "'CLASS.ATTR'; got '" ++ full_name ++ "'"))

/-- The class-level Distribution.instances dict. -/
abbrev Registry := List (String × Distribution)

/-- Distribution.__init__'s registration side effect: construct the
instance and store it under its full name (cls.instances assignment). -/
def register (reg : Registry) (full_name : String) (rv : RV) : Except Err Registry :=
  (Distribution.make full_name rv).map (fun d => dictInsert reg full_name d)

/-- Distribution.distro_by_name: cls.instances.get(name). -/
def distro_by_name (reg : Registry) (name : String) : Option Distribution :=
  alookup reg name

/-- Distribution.distributions: the registered instances in dict order. -/
def distributions (reg : Registry) : List Distribution :=
  reg.map (fun p => p.2)

/-- Python str.lower(), character by character (ASCII). -/
def pyLower (s : String) : String := String.mk (s.data.map Char.toLower)

/-- The body of the row loop of read_distributions (simulation.py lines
56-122): returns none when the row is skipped, the (name, rv) pair to
register when it is kept, and an McsSystemError on an unknown shape. -/
def processRow (row : DistroRow) : Except Err (Option (String × RV)) :=
  let shape := pyLower row.distribution_type
  let name := row.variable_name
  let low := row.low_bound
  let high := row.high_bound
  let mean := row.mean
  let stdev := row.SD
  let dflt := row.default_value
  let prob_of_yes := row.prob_of_yes
  if name = "" then
    .ok none
  else if low = Cell.empty ∧ high = Cell.empty ∧ mean = Cell.empty ∧
      prob_of_yes = Cell.empty ∧ shape ≠ "empirical" then
    .ok none
  else if shape = "binary" then
    if prob_of_yes = Cell.num 0 ∨ prob_of_yes = Cell.num 1 then
      .ok none
    else
      .ok (some (name, .weighted_binary
        (if prob_of_yes = Cell.empty then Cell.num (1/2) else prob_of_yes)))
  else if shape = "uniform" then
    if low = high then
      .ok none
    else
      .ok (some (name, .uniform low high))
  else if shape = "triangular" then
    if low = high then
      .ok none
    else
      .ok (some (name, .triangle low dflt high))
  else if shape = "normal" then
    if stdev = Cell.num 0 then
      .ok none
    else if low = Cell.empty ∨ high = Cell.empty then
      .ok (some (name, .normal mean stdev))
    else
      .ok (some (name, .truncated_normal mean stdev low high))
  else if shape = "lognormal" then
    if stdev = Cell.num 0 then
      .ok none
    else if low = Cell.empty ∨ high = Cell.empty then
      .ok (some (name, .lognormal mean stdev))
    else
      .ok (some (name, .truncated_lognormal mean stdev low high))
  else if shape = "empirical" then
    .ok (some (name, .empirical row.pathname name))
  else
    .error (.system ("Unknown distribution shape: '" ++ shape ++ "'"))

/-- read_distributions (simulation.py lines 44-122): process the CSV rows
in order, registering each kept row into the class-level registry; an
unknown shape aborts the whole parse with an McsSystemError. -/
def read_distributions : List DistroRow → Registry → Except Err Registry
  | [], reg => .ok reg
  | row :: rest, reg =>
    match processRow row with
    | .error e => .error e
    | .ok none => read_distributions rest reg
    | .ok (some (name, rv)) =>
      match register reg name rv with
      | .error e => .error e
      | .ok reg2 => read_distributions rest reg2

/-- Modelled from the spec: an attribute handle on a model object
(opgee/attribute.py is not in src/).  The spec's resolveAttribute interface
exposes a get/set value and an isExplicit flag. -/
structure AttrObj where
  explicit : Bool
  value : ℚ
  deriving DecidableEq, Repr

/-- Modelled from the spec: a Field (subject) of the model
(opgee/field.py is not in src/).  It carries a name, an enabled flag, its
attribute dict, and its processes' attribute dicts keyed by process class
name (the shape consumed by Simulation.lookup). -/
structure FieldObj where
  name : String
  enabled : Bool
  attr_dict : List (String × AttrObj)
  process_dict : List (String × List (String × AttrObj))
  deriving DecidableEq, Repr

/-- Modelled from the spec: an Analysis (opgee/analysis.py is not in
src/): a name, its attribute dict, and its fields keyed by name. -/
structure AnalysisObj where
  name : String
  attr_dict : List (String × AttrObj)
  field_dict : List (String × FieldObj)
  deriving DecidableEq, Repr

/-- The Model object: its analyses keyed by name (model.py). -/
structure ModelObj where
  analysis_dict : List (String × AnalysisObj)
  deriving DecidableEq, Repr

/-- Modelled after Model.get_field (model.py lines 126-131) for
Analysis.get_field (opgee/analysis.py is not in src/): dict lookup, raising
an OpgeeException when the name is absent. -/
def get_field (ana : AnalysisObj) (name : String) : Except Err FieldObj :=
  match alookup ana.field_dict name with
  | some f => .ok f
  | none => .error (.opgee ("Field named '" ++ name ++ "' is not defined"))

/-- Model.get_analysis with raiseError=False (model.py lines 119-124). -/
def get_analysis (m : ModelObj) (name : String) : Option AnalysisObj :=
  alookup m.analysis_dict name

/-- The attribute dict in which Simulation.lookup (simulation.py lines
353-371) searches, given the class part of the qualified name. -/
def lookupTarget (ana : AnalysisObj) (field : FieldObj) (class_name : Option String) :
    Except Err (List (String × AttrObj)) :=
  match class_name with
  | none => .ok field.attr_dict
  | some c =>
    if c = "Field" then .ok field.attr_dict
    else if c = "Analysis" then .ok ana.attr_dict
    else match alookup field.process_dict c with
      | some attrs => .ok attrs
      | none => .error (.user ("A process of class '" ++ c ++ "' was not found in " ++ field.name))

/-- Simulation.lookup (simulation.py lines 353-371): split the qualified
name, resolve the owning object, and fetch the attribute from its dict. -/
def sim_lookup (ana : AnalysisObj) (field : FieldObj) (full_name : String) :
    Except Err AttrObj :=
  match split_attr_name full_name with
  | .error e => .error e
  | .ok cn =>
    match lookupTarget ana field cn.1 with
    | .error e => .error e
    | .ok attrs =>
      match alookup attrs cn.2 with
      | some a => .ok a
      | none => .error (.user ("The attribute '" ++ cn.2 ++ "' was not found"))

/-- The per-field trial-data table: the column names and the rows keyed by
trial number (the DataFrame index named trial_num). -/
structure TrialTable where
  columns : List String
  rows : List (Nat × List ℚ)
  deriving DecidableEq, Repr

/-- The column name used for a distribution in the trial-data table
(simulation.py line 400): the bare attribute name when the owning class is
Field, the fully qualified name otherwise. -/
def colName (d : Distribution) : String :=
  if d.class_name = some "Field" then d.attr_name else d.full_name

/-- The distribution-filtering loop of Simulation.generate (simulation.py
lines 391-400): resolve each distribution's target attribute on the field
(raising McsUserError on an unresolvable name), drop the ones pinned to an
explicit value, and keep (rv, column-name) pairs in registry order. -/
def collectCols (ana : AnalysisObj) (field : FieldObj) :
    List Distribution → Except Err (List (RV × String))
  | [] => .ok []
  | d :: rest =>
    match sim_lookup ana field d.full_name with
    | .error e => .error e
    | .ok target =>
      match collectCols ana field rest with
      | .error e => .error e
      | .ok tail =>
        if target.explicit then .ok tail
        else .ok ((d.rv, colName d) :: tail)

/-- The per-field body of Simulation.generate (simulation.py lines
386-407): filter the distributions, fail with McsUserError when no column
remains, otherwise sample via the LHS oracle and build the table indexed by
trial number. -/
def genField (ana : AnalysisObj) (field : FieldObj) (trials : Nat) (reg : Registry)
    (lhsFn : List RV → Nat → List String → List (List ℚ)) :
    Except Err TrialTable :=
  match collectCols ana field (distributions reg) with
  | .error e => .error e
  | .ok pairs =>
    if pairs = [] then
      .error (.user ("Can't run MCS: all parameters with distributions have explicit values in "
        ++ field.name))
    else
      let vals := lhsFn (pairs.map (fun p => p.1)) trials (pairs.map (fun p => p.2))
      .ok { columns := pairs.map (fun p => p.2), rows := (List.range vals.length).zip vals }

/-- Simulation.chosen_fields (simulation.py lines 347-351); a falsy (None
or empty) name list selects all fields of the analysis. -/
def chosen_fields (ana : AnalysisObj) (field_names : Option (List String)) :
    Except Err (List FieldObj) :=
  match field_names with
  | some (n :: ns) => (n :: ns).mapM (fun nm => get_field ana nm)
  | _ => .ok (ana.field_dict.map (fun p => p.2))

/-- The field loop of Simulation.generate: per chosen field, generate and
record the table write, caching the table in self.trial_data_df (so the
last generated field's table remains cached). -/
def generateGo (ana : AnalysisObj) (trials : Nat) (reg : Registry)
    (lhsFn : List RV → Nat → List String → List (List ℚ)) :
    List FieldObj → List (String × TrialTable) → Option TrialTable →
    Except Err (List (String × TrialTable) × Option TrialTable)
  | [], writes, cache => .ok (writes, cache)
  | f :: rest, writes, _cache =>
    match genField ana f trials reg lhsFn with
    | .error e => .error e
    | .ok tbl => generateGo ana trials reg lhsFn rest (writes ++ [(f.name, tbl)]) (some tbl)

/-- Simulation.generate (simulation.py lines 374-407): returns the
(field-name, table) writes performed and the final trial_data_df cache. -/
def generate (ana : AnalysisObj) (field_names : Option (List String)) (trials : Nat)
    (reg : Registry) (lhsFn : List RV → Nat → List String → List (List ℚ)) :
    Except Err (List (String × TrialTable) × Option TrialTable) :=
  match chosen_fields ana field_names with
  | .error e => .error e
  | .ok fields => generateGo ana trials reg lhsFn fields [] none

/-- The metadata.json payload (simulation.py lines 252-260). -/
structure MetaData where
  analysis_name : String
  trials : Nat
  field_names : Option (List String)
  deriving DecidableEq, Repr

/-- Typed file contents: the cached model XML text, the metadata json, a
trial-data CSV, or generic CSV lines (results/failures files). -/
inductive FileData where
  | text (s : String)
  | metaJson (m : MetaData)
  | trialCsv (t : TrialTable)
  | csvLines (ls : List String)
  deriving DecidableEq, Repr

/-- An explicit filesystem: the set of directories and a map from file
paths to contents. -/
structure FS where
  dirs : List String
  files : List (String × FileData)
  deriving DecidableEq, Repr

def FS.isDir (fs : FS) (d : String) : Bool := fs.dirs.contains d

def FS.readFile (fs : FS) (p : String) : Option FileData := alookup fs.files p

def FS.lexists (fs : FS) (p : String) : Bool :=
  fs.dirs.contains p || (alookup fs.files p).isSome

def FS.writeFile (fs : FS) (p : String) (d : FileData) : FS :=
  { fs with files := dictInsert fs.files p d }

def FS.mkdirs (fs : FS) (d : String) : FS :=
  if fs.dirs.contains d then fs else { fs with dirs := fs.dirs ++ [d] }

/-- Whether path p lies at or below directory root. -/
def isUnder (root p : String) : Bool :=
  p = root || List.isPrefixOf (root ++ "/").data p.data

/-- utils.removeTree: delete a directory tree. -/
def FS.removeTree (fs : FS) (root : String) : FS :=
  { dirs := fs.dirs.filter (fun d => ¬ isUnder root d),
    files := fs.files.filter (fun f => ¬ isUnder root f.1) }

def pathjoin (a b : String) : String := a ++ "/" ++ b

def model_file_path (sim_dir : String) : String := pathjoin sim_dir "merged_model.xml"

def metadata_path (sim_dir : String) : String := pathjoin sim_dir "metadata.json"

def field_dir (sim_dir field_name : String) : String := pathjoin sim_dir field_name

def trial_data_path (sim_dir field_name : String) : String :=
  pathjoin (field_dir sim_dir field_name) "trial_data.csv"

def results_path (sim_dir field_name : String) : String :=
  pathjoin (field_dir sim_dir field_name) "results.csv"

def failures_path (sim_dir field_name : String) : String :=
  pathjoin (field_dir sim_dir field_name) "failures.csv"

/-- What Simulation._load_meta_data returns into the instance state. -/
structure MetaLoad where
  metadata : MetaData
  field_names : Option (List String)
  analysis_name : String
  trials : Nat
  deriving DecidableEq, Repr

/-- Simulation._load_meta_data (simulation.py lines 262-278): read and
parse metadata.json (any failure is wrapped into an McsUserError); when a
truthy field-name list is requested, keep the metadata names that are in
the requested set (preserving metadata order); iterating a null metadata
field_names raises a plain TypeError. -/
def load_meta_data (fs : FS) (sim_dir : String) (field_names : Option (List String)) :
    Except Err MetaLoad :=
  match FS.readFile fs (metadata_path sim_dir) with
  | some (.metaJson md) =>
    match field_names with
    | some (n :: ns) =>
      match md.field_names with
      | some ms =>
        .ok { metadata := md,
              field_names := some (ms.filter (fun m => (n :: ns).contains m)),
              analysis_name := md.analysis_name, trials := md.trials }
      | none => .error (.pythonTypeError "'NoneType' object is not iterable")
    | _ =>
      .ok { metadata := md, field_names := md.field_names,
            analysis_name := md.analysis_name, trials := md.trials }
  | _ => .error (.user ("Failed to load simulation '" ++ metadata_path sim_dir ++ "'"))

/-- Reading a trial_data.csv (simulation.py lines 443-451): missing path
or unreadable content is an McsSystemError. -/
def readTrialCsv (fs : FS) (path : String) : Except Err TrialTable :=
  if ¬ FS.lexists fs path then
    .error (.system ("Can't read trial data: '" ++ path ++ "' doesn't exist."))
  else
    match FS.readFile fs path with
    | some (.trialCsv t) => .ok t
    | _ => .error (.system ("Can't read trial data from '" ++ path ++ "'"))

/-- Simulation.field_trial_data (simulation.py lines 427-454): return the
cached table if one is cached — regardless of which field is asked for —
otherwise read the given field's trial_data.csv and cache it.  Returns the
result together with the updated trial_data_df cache. -/
def field_trial_data (fs : FS) (sim_dir : String) (field : FieldObj)
    (cache : Option TrialTable) : Except Err TrialTable × Option TrialTable :=
  match cache with
  | some df => (.ok df, some df)
  | none =>
    match readTrialCsv fs (trial_data_path sim_dir field.name) with
    | .ok df => (.ok df, some df)
    | .error e => (.error e, none)

/-- Simulation.trial_data (simulation.py lines 456-470): the parameter
values of one trial, as (column-name, value) pairs; a trial number absent
from the table's index is an McsSystemError. -/
def trial_data (fs : FS) (sim_dir : String) (field : FieldObj)
    (cache : Option TrialTable) (trial_num : Nat) :
    Except Err (List (String × ℚ)) × Option TrialTable :=
  match field_trial_data fs sim_dir field cache with
  | (.error e, c) => (.error e, c)
  | (.ok df, c) =>
    match alookup df.rows trial_num with
    | some vals => (.ok (df.columns.zip vals), c)
    | none => (.error (.system ("Trial " ++ toString trial_num ++ " was not found in '"
        ++ trial_data_path sim_dir field.name ++ "'")), c)

/-- Setting an attribute as an explicit override (simulation.py lines
476-479): attr.explicit = True; attr.set_value(value). -/
def attrSet (attrs : List (String × AttrObj)) (attr_name : String) (v : ℚ) :
    List (String × AttrObj) :=
  attrs.map (fun p => if p.1 = attr_name then (p.1, { explicit := true, value := v }) else p)

/-- One step of Simulation.set_trial_data: self.lookup(name, field)
followed by the explicit-value mutation, applied to the analysis state
(the field handle is the value stored under fieldKey in the fresh model's
field dict, so mutating it is updating that entry). -/
def setAttrValue (ana : AnalysisObj) (fieldKey : String) (full_name : String) (v : ℚ) :
    Except Err AnalysisObj :=
  match alookup ana.field_dict fieldKey with
  | none => .error (.opgee ("Field named '" ++ fieldKey ++ "' is not defined"))
  | some field =>
    match split_attr_name full_name with
    | .error e => .error e
    | .ok (class_name, attr_name) =>
      let updF : FieldObj → FieldObj :=
        fun f => { f with attr_dict := attrSet f.attr_dict attr_name v }
      let setOnField : Except Err AnalysisObj :=
        if (alookup field.attr_dict attr_name).isSome then
          .ok { ana with field_dict := dictUpdate ana.field_dict fieldKey updF }
        else .error (.user ("The attribute '" ++ attr_name ++ "' was not found"))
      match class_name with
      | none => setOnField
      | some c =>
        if c = "Field" then setOnField
        else if c = "Analysis" then
          if (alookup ana.attr_dict attr_name).isSome then
            .ok { ana with attr_dict := attrSet ana.attr_dict attr_name v }
          else .error (.user ("The attribute '" ++ attr_name ++ "' was not found"))
        else
          match alookup field.process_dict c with
          | none => .error (.user ("A process of class '" ++ c ++ "' was not found in "
              ++ field.name))
          | some attrs =>
            let updAttrs : List (String × AttrObj) → List (String × AttrObj) :=
              fun pattrs => attrSet pattrs attr_name v
            let updP : FieldObj → FieldObj := fun f =>
              { f with process_dict := dictUpdate f.process_dict c updAttrs }
            if (alookup attrs attr_name).isSome then
              .ok { ana with field_dict := dictUpdate ana.field_dict fieldKey updP }
            else .error (.user ("The attribute '" ++ attr_name ++ "' was not found"))

/-- The mutation loop of Simulation.set_trial_data (simulation.py lines
476-479): set every sampled (name, value) pair as an explicit value. -/
def set_trial_data (ana : AnalysisObj) (fieldKey : String) :
    List (String × ℚ) → Except Err AnalysisObj
  | [] => .ok ana
  | (name, v) :: rest =>
    match setAttrValue ana fieldKey name v with
    | .error e => .error e
    | .ok ana2 => set_trial_data ana2 fieldKey rest

/-- The type of the ModelFile parsing oracle: XML text plus the
analysis-name and field-name restrictions, yielding a model or raising.
ModelFile itself (opgee/model_file.py) is an external collaborator. -/
def ParseFn : Type := String → Option (List String) → Option (List String) → Except Err ModelObj

/-- Simulation.load_model (simulation.py lines 224-241): re-parse the
cached XML string into a fresh model and resolve the analysis in it,
raising CommandlineError when the analysis is missing. -/
def load_model (parse : ParseFn) (xml : String) (analysis_name : String)
    (field_names : Option (List String)) : Except Err AnalysisObj :=
  match parse xml (some [analysis_name]) field_names with
  | .error e => .error e
  | .ok m =>
    match get_analysis m analysis_name with
    | some a => .ok a
    | none => .error (.commandline ("Analysis '" ++ analysis_name ++ "' was not found in model"))

/-- Modelled from the spec: the GHG row of field.emissions.data after a
successful field.run, keyed by the spec's emission categories (the
Emissions class is not in src/). -/
structure GHGRow where
  venting : ℚ
  flaring : ℚ
  fugitives : ℚ
  combustion : ℚ
  land_use : ℚ
  other : ℚ
  deriving DecidableEq, Repr

/-- ghg.sum(): the GHG total across categories. -/
def GHGRow.total (g : GHGRow) : ℚ :=
  g.venting + g.flaring + g.fugitives + g.combustion + g.land_use + g.other

/-- Modelled from the spec: what a successful field.run(analysis,
compute_ci=True, trial_num) leaves on the field — the carbon-intensity
scalar and the GHG emissions row (opgee/field.py is not in src/). -/
structure EvalOut where
  carbon_intensity : ℚ
  ghg : GHGRow
  deriving DecidableEq, Repr

/-- The type of the external model evaluator: the fresh analysis, the
re-resolved field handle and the trial number; may raise. -/
def RunnerFn : Type := AnalysisObj → FieldObj → Nat → Except Err EvalOut

/-- magnitude (simulation.py lines 35-38): round to DEFAULT_DIGITS = 3
decimal digits (mathematical rounding stands in for Python round). -/
def magnitude (q : ℚ) : ℚ := (round (q * 1000) : ℤ) / 1000

/-- One row of the results table (simulation.py lines 541-557). -/
structure ResultRow where
  trial_num : Nat
  ci : ℚ
  total_GHG : ℚ
  combustion : ℚ
  land_use : ℚ
  vff : ℚ
  other : ℚ
  deriving DecidableEq, Repr

/-- The result-extraction code after a successful trial (simulation.py
lines 532-549): CI, total GHG, combustion, land use, Venting + Flaring +
Fugitives, and other, each rounded via magnitude. -/
def mkResultRow (t : Nat) (out : EvalOut) : ResultRow :=
  { trial_num := t,
    ci := magnitude out.carbon_intensity,
    total_GHG := magnitude out.ghg.total,
    combustion := magnitude out.ghg.combustion,
    land_use := magnitude out.ghg.land_use,
    vff := magnitude (out.ghg.venting + out.ghg.flaring + out.ghg.fugitives),
    other := magnitude out.ghg.other }

/-- The body of the trial loop of Simulation.run_field (simulation.py
lines 501-549): reload the model from the cached XML string, re-resolve
the field handle in the fresh model, read the trial's sampled row, apply
it as explicit values, and invoke the evaluator; any error is the trial's
failure.  Returns the outcome, the current field-handle name after the
iteration, and the updated trial_data_df cache. -/
def trialAttempt (parse : ParseFn) (runner : RunnerFn) (fs : FS) (sim_dir xml : String)
    (analysis_name : String) (field_names : Option (List String))
    (curName : String) (cache : Option TrialTable) (t : Nat) :
    Except Err ResultRow × String × Option TrialTable :=
  match load_model parse xml analysis_name field_names with
  | .error e => (.error e, curName, cache)
  | .ok ana =>
    match get_field ana curName with
    | .error e => (.error e, curName, cache)
    | .ok f =>
      match trial_data fs sim_dir f cache t with
      | (.error e, cache2) => (.error e, f.name, cache2)
      | (.ok row, cache2) =>
        match set_trial_data ana curName row with
        | .error e => (.error e, f.name, cache2)
        | .ok ana2 =>
          match get_field ana2 curName with
          | .error e => (.error e, f.name, cache2)
          | .ok f2 =>
            match runner ana2 f2 t with
            | .error e => (.error e, f.name, cache2)
            | .ok out => (.ok (mkResultRow t out), f.name, cache2)

/-- The accumulated state of Simulation.run_field. -/
structure RunFieldOut where
  completed : Nat
  results : List ResultRow
  failures : List (Nat × Err)
  cache : Option TrialTable
  finalName : String
  deriving DecidableEq, Repr

/-- The trial loop of Simulation.run_field (simulation.py lines 497-549):
per trial number, a successful attempt increments completed and appends a
results row; an exception is downgraded to a failures entry and the loop
continues. -/
def run_field_go (parse : ParseFn) (runner : RunnerFn) (fs : FS) (sim_dir xml : String)
    (analysis_name : String) (field_names : Option (List String)) :
    List Nat → String → Option TrialTable → Nat → List ResultRow → List (Nat × Err) →
    RunFieldOut
  | [], curName, cache, completed, results, failures =>
    ⟨completed, results, failures, cache, curName⟩
  | t :: rest, curName, cache, completed, results, failures =>
    match trialAttempt parse runner fs sim_dir xml analysis_name field_names curName cache t with
    | (.error e, curName2, cache2) =>
      run_field_go parse runner fs sim_dir xml analysis_name field_names rest
        curName2 cache2 completed results (failures ++ [(t, e)])
    | (.ok row, curName2, cache2) =>
      run_field_go parse runner fs sim_dir xml analysis_name field_names rest
        curName2 cache2 (completed + 1) (results ++ [row]) failures

/-- Numeric rendering of a value in a CSV cell. -/
def ratStr (q : ℚ) : String := toString q

/-- The results-table header written by df.to_csv with the columns of
simulation.py lines 551-557 and index=False. -/
def results_header : String := "trial_num,CI,total_GHG,combustion,land_use,VFF,other"

/-- One results row as written by df.to_csv(index=False): the seven
column values, with no index column. -/
def resultRowLine (r : ResultRow) : String :=
  toString r.trial_num ++ "," ++ ratStr r.ci ++ "," ++ ratStr r.total_GHG ++ ","
    ++ ratStr r.combustion ++ "," ++ ratStr r.land_use ++ "," ++ ratStr r.vff ++ ","
    ++ ratStr r.other

/-- The full results.csv contents. -/
def resultsCsv (results : List ResultRow) : List String :=
  results_header :: results.map resultRowLine

/-- One failures row (simulation.py line 425): trial number, then the
message wrapped in double quotes. -/
def failureLine (p : Nat × Err) : String :=
  toString p.1 ++ ",\"" ++ errMsg p.2 ++ "\""

/-- The full failures.csv contents (simulation.py lines 422-425). -/
def failuresCsv (failures : List (Nat × Err)) : List String :=
  "trial_num,message" :: failures.map failureLine

/-- Simulation.save_trial_results (simulation.py lines 414-425): write
results.csv (creating the field directory) and failures.csv. -/
def save_trial_results (fs : FS) (sim_dir field_name : String)
    (results : List ResultRow) (failures : List (Nat × Err)) : FS :=
  let fs1 := FS.mkdirs fs (field_dir sim_dir field_name)
  let fs2 := FS.writeFile fs1 (results_path sim_dir field_name)
    (.csvLines (resultsCsv results))
  FS.writeFile fs2 (failures_path sim_dir field_name)
    (.csvLines (failuresCsv failures))

/-- Simulation.run_field (simulation.py lines 485-562).  The _ana0
argument is self.analysis as it stands at entry (possibly mutated by a
previous run); the loop reloads the model before any use of it, so it is
dead state.  A None trial_nums means range(self.trials). -/
def run_field (parse : ParseFn) (runner : RunnerFn) (fs : FS) (sim_dir xml : String)
    (analysis_name : String) (field_names : Option (List String))
    (_ana0 : Option AnalysisObj) (cache : Option TrialTable) (trials : Nat)
    (field : FieldObj) (trial_nums : Option (List Nat)) : RunFieldOut × FS :=
  let ts := trial_nums.getD (List.range trials)
  let o := run_field_go parse runner fs sim_dir xml analysis_name field_names ts
    field.name cache 0 [] []
  (o, save_trial_results fs sim_dir o.finalName o.results o.failures)

/-- The outcome of a single trial as a function of the run's read-only
inputs alone: the cached template string, the trial table (initial cache
or the on-disk file), the field name, and the external oracles.  This is
the pure per-trial contract: it mentions no state from any other trial. -/
def trialOutcome (parse : ParseFn) (runner : RunnerFn) (fs : FS) (sim_dir xml : String)
    (analysis_name : String) (field_names : Option (List String))
    (fieldName : String) (cache : Option TrialTable) (t : Nat) : Except Err ResultRow :=
  (trialAttempt parse runner fs sim_dir xml analysis_name field_names fieldName cache t).1

/-- The Simulation instance state set up by the constructor. -/
structure SimSt where
  pathname : String
  analysis_name : String
  trials : Nat
  field_names : Option (List String)
  model_xml_string : Option String
  analysis : Option AnalysisObj
  trial_data_df : Option TrialTable
  metadata : Option MetaData
  deriving DecidableEq, Repr

/-- The LHS sampling oracle (mcs/LHS.py is an external collaborator):
random-variable list, trial count and column names to sampled rows. -/
def LhsFn : Type := List RV → Nat → List String → List (List ℚ)

/-- Simulation.generate's per-field trial_data.csv writes (simulation.py
lines 409-412): create the field directory and write the table. -/
def applyTrialWrites (sim_dir : String) : FS → List (String × TrialTable) → FS
  | fs, [] => fs
  | fs, (fn, tbl) :: rest =>
    applyTrialWrites sim_dir
      (FS.writeFile (FS.mkdirs fs (field_dir sim_dir fn)) (trial_data_path sim_dir fn)
        (.trialCsv tbl)) rest

/-- The tail of Simulation.__init__ common to both branches (simulation.py
lines 204-222): cache the model XML text (McsSystemError on failure), in
the analysis_name branch save the metadata, then load the model and, when
trials is positive, generate trial data. -/
def initAfterMeta (parse : ParseFn) (lhsFn : LhsFn) (reg : Registry) (fs : FS)
    (sim_dir : String) (st : SimSt) (save_meta meta_data_only : Bool) :
    Except Err (SimSt × FS) :=
  match FS.readFile fs (model_file_path sim_dir) with
  | some (.text xml) =>
    let st2 := { st with model_xml_string := some xml }
    let md : MetaData := { analysis_name := st.analysis_name, trials := st.trials,
                           field_names := st.field_names }
    let st3 := if save_meta then { st2 with metadata := some md } else st2
    let fs2 := if save_meta then FS.writeFile fs (metadata_path sim_dir) (.metaJson md) else fs
    if save_meta && meta_data_only then .ok (st3, fs2)
    else
      match load_model parse xml st.analysis_name st.field_names with
      | .error e => .error e
      | .ok ana =>
        let st4 := { st3 with analysis := some ana }
        if st.trials > 0 then
          match generate ana st.field_names st.trials reg lhsFn with
          | .error e => .error e
          | .ok (writes, cache) =>
            .ok ({ st4 with trial_data_df := cache }, applyTrialWrites sim_dir fs2 writes)
        else .ok (st4, fs2)
  | _ =>
    .error (.system ("Failed to read model file '" ++ model_file_path sim_dir
      ++ "' to XML string"))

/-- Simulation.__init__ (simulation.py lines 180-222).  A sim_dir that is
not an existing directory raises McsUserError before anything else; with
no analysis_name the metadata is loaded from disk; with an analysis_name
the metadata is written. -/
def Simulation.init (parse : ParseFn) (lhsFn : LhsFn) (reg : Registry) (fs : FS)
    (sim_dir : String) (analysis_name : Option String) (trials : Nat)
    (field_names : Option (List String)) (meta_data_only : Bool) :
    Except Err (SimSt × FS) :=
  if ¬ FS.isDir fs sim_dir then
    .error (.user ("Simulation directory '" ++ sim_dir ++ "' does not exist."))
  else
    let st0 : SimSt := { pathname := sim_dir, analysis_name := "", trials := trials,
                         field_names := field_names, model_xml_string := none,
                         analysis := none, trial_data_df := none, metadata := none }
    match analysis_name with
    | none =>
      match load_meta_data fs sim_dir field_names with
      | .error e => .error e
      | .ok ml =>
        let st1 := { st0 with
          metadata := some ml.metadata,
          field_names := ml.field_names,
          analysis_name := ml.analysis_name,
          trials := ml.trials }
        if meta_data_only then .ok (st1, fs)
        else initAfterMeta parse lhsFn reg fs sim_dir st1 false meta_data_only
    | some aname =>
      let st1 := { st0 with analysis_name := aname }
      initAfterMeta parse lhsFn reg fs sim_dir st1 true meta_data_only

/-- Simulation.new (simulation.py lines 280-319): refuse to overwrite an
existing path unless overwrite is set, else purge and recreate the
directory, write the merged model template (the ModelFile merge is the
merge oracle), check the analysis exists, default the field names to the
analysis' enabled fields, and construct the Simulation (which writes
metadata and, when trials is positive, generates trial data). -/
def Simulation.new (parse : ParseFn) (lhsFn : LhsFn) (reg : Registry)
    (merge : List String → Except Err String) (fs : FS) (sim_dir : String)
    (model_files : List String) (analysis_name : String) (trials : Nat)
    (field_names : Option (List String)) (overwrite : Bool) :
    Except Err (SimSt × FS) :=
  if FS.lexists fs sim_dir ∧ ¬ overwrite then
    .error (.user ("Directory '" ++ sim_dir ++ "' already exists. Use "
      ++ "Simulation.new(sim_dir, overwrite=True) to replace it."))
  else
    let fs1 := if FS.lexists fs sim_dir then FS.removeTree fs sim_dir else fs
    let fs2 := FS.mkdirs fs1 sim_dir
    match merge model_files with
    | .error e => .error e
    | .ok merged =>
      let fs3 := FS.writeFile fs2 (model_file_path sim_dir) (.text merged)
      match parse merged none none with
      | .error e => .error e
      | .ok m =>
        match get_analysis m analysis_name with
        | none => .error (.user ("Analysis '" ++ analysis_name ++ "' was not found in model"))
        | some ana =>
          let fns := match field_names with
            | some (n :: ns) => n :: ns
            | _ => (ana.field_dict.filter (fun p => p.2.enabled)).map (fun p => p.1)
          Simulation.init parse lhsFn reg fs3 sim_dir (some analysis_name) trials
            (some fns) false

/-- Registering a whole sequence of (name, rv) pairs through
Distribution.__init__, in order: the common mechanism behind both CSV
parsing and programmatic registration. -/
def registerAll (reg : Registry) : List (String × RV) → Except Err Registry
  | [] => .ok reg
  | (n, rv) :: rest =>
    match register reg n rv with
    | .error e => .error e
    | .ok reg2 => registerAll reg2 rest

/-- The most recent rv registered for a name in a registration sequence. -/
def lastRV (regs : List (String × RV)) (n : String) : Option RV :=
  alookup regs.reverse n

theorem alookup_append_single {κ α : Type} [DecidableEq κ] (m : List (κ × α))
    (k : κ) (v : α) (n : κ) :
    alookup (m ++ [(k, v)]) n =
      match alookup m n with
      | some w => some w
      | none => if n = k then some v else none := by
  induction m with
  | nil => simp [alookup]
  | cons p rest ih =>
    by_cases h : n = p.1
    · simp [alookup, h]
    · simp [alookup, h, ih]

theorem alookup_replace {κ α : Type} [DecidableEq κ] (m : List (κ × α))
    (k : κ) (v : α) (n : κ) :
    alookup (m.map (fun p => if p.1 = k then (k, v) else p)) n =
      if n = k then (if m.any (fun p => p.1 = k) then some v else none)
      else alookup m n := by
  induction m with
  | nil => simp [alookup]
  | cons p rest ih =>
    by_cases hk : p.1 = k
    · have hmap : (p :: rest).map (fun q => if q.1 = k then (k, v) else q)
          = (k, v) :: rest.map (fun q => if q.1 = k then (k, v) else q) := by
        simp [hk]
      rw [hmap]
      by_cases hn : n = k
      · simp [alookup, hn, hk]
      · have hnp : ¬ n = p.1 := fun h => hn (h.trans hk)
        simp [alookup, hn, hnp, hk, ih]
    · have hmap : (p :: rest).map (fun q => if q.1 = k then (k, v) else q)
          = p :: rest.map (fun q => if q.1 = k then (k, v) else q) := by
        simp [hk]
      rw [hmap]
      by_cases hn : n = p.1
      · have hnk : ¬ n = k := fun h => hk (hn ▸ h)
        simp [alookup, hn, hnk, hk]
      · have hstep : alookup (p :: rest.map (fun q => if q.1 = k then (k, v) else q)) n
            = alookup (rest.map (fun q => if q.1 = k then (k, v) else q)) n := by
          simp [alookup, hn]
        rw [hstep, ih]
        have hdec : (decide (p.1 = k)) = false := by simp [hk]
        rw [List.any_cons, hdec, Bool.false_or]
        simp [alookup, hn]

theorem alookup_eq_none_of_not_any {κ α : Type} [DecidableEq κ] (m : List (κ × α))
    (k : κ) (h : m.any (fun p => p.1 = k) = false) : alookup m k = none := by
  induction m with
  | nil => rfl
  | cons p rest ih =>
    simp only [List.any_cons, Bool.or_eq_false_iff] at h
    have h1 : ¬ (k = p.1) := by
      intro hk
      have := h.1
      simp [hk] at this
    simpa [alookup, h1] using ih h.2

theorem bool_eq_false {b : Bool} (h : ¬ b = true) : b = false := by
  cases b
  · rfl
  · exact absurd rfl h

theorem alookup_dictInsert {κ α : Type} [DecidableEq κ] (m : List (κ × α))
    (k : κ) (v : α) (n : κ) :
    alookup (dictInsert m k v) n = if n = k then some v else alookup m n := by
  unfold dictInsert
  by_cases hany : m.any (fun p => p.1 = k)
  · rw [if_pos hany, alookup_replace]
    by_cases hn : n = k
    · simp [hn, hany]
    · simp [hn]
  · rw [if_neg hany, alookup_append_single]
    by_cases hn : n = k
    · subst hn
      rw [alookup_eq_none_of_not_any m n (bool_eq_false hany)]
    · cases halo : alookup m n <;> simp [hn]

theorem keys_replace {κ α : Type} [DecidableEq κ] (m : List (κ × α)) (k : κ) (v : α) :
    (m.map (fun p => if p.1 = k then (k, v) else p)).map Prod.fst = m.map Prod.fst := by
  induction m with
  | nil => rfl
  | cons p rest ih =>
    by_cases h : p.1 = k
    · simp only [List.map_cons, if_pos h, ih]
      simp [h]
    · simp only [List.map_cons, if_neg h, ih]

theorem keys_dictInsert {κ α : Type} [DecidableEq κ] (m : List (κ × α)) (k : κ) (v : α) :
    (dictInsert m k v).map Prod.fst =
      if m.any (fun p => p.1 = k) then m.map Prod.fst else m.map Prod.fst ++ [k] := by
  unfold dictInsert
  by_cases hany : m.any (fun p => p.1 = k)
  · rw [if_pos hany, if_pos hany, keys_replace]
  · rw [if_neg hany, if_neg hany, List.map_append]
    rfl

theorem not_mem_keys_of_not_any {κ α : Type} [DecidableEq κ] (m : List (κ × α))
    (k : κ) : m.any (fun p => p.1 = k) = false → k ∉ m.map Prod.fst := by
  induction m with
  | nil => intro _ h; simp at h
  | cons p rest ih =>
    intro h
    simp only [List.any_cons, Bool.or_eq_false_iff] at h
    have h1 : ¬ p.1 = k := by
      intro hk
      have := h.1
      simp [hk] at this
    simp only [List.map_cons, List.mem_cons]
    rintro (hh | hh)
    · exact h1 hh.symm
    · exact ih h.2 hh

theorem nodup_keys_dictInsert {κ α : Type} [DecidableEq κ] (m : List (κ × α))
    (k : κ) (v : α) (h : (m.map Prod.fst).Nodup) :
    ((dictInsert m k v).map Prod.fst).Nodup := by
  rw [keys_dictInsert]
  by_cases hany : m.any (fun p => p.1 = k)
  · simpa [hany] using h
  · have hnot := not_mem_keys_of_not_any m k (bool_eq_false hany)
    rw [if_neg hany]
    rw [List.nodup_append]
    refine ⟨h, List.nodup_singleton k, ?_⟩
    intro a ha hak
    rw [List.mem_singleton] at hak
    exact hnot (hak ▸ ha)

theorem lastRV_cons (n₀ : String) (rv₀ : RV) (rest : List (String × RV)) (n : String) :
    lastRV ((n₀, rv₀) :: rest) n =
      match lastRV rest n with
      | some rv => some rv
      | none => if n = n₀ then some rv₀ else none := by
  unfold lastRV
  rw [List.reverse_cons, alookup_append_single]
  cases alookup rest.reverse n <;> rfl

theorem register_ok {reg : Registry} {n : String} {rv : RV} {reg2 : Registry} :
    register reg n rv = .ok reg2 ↔
      ∃ d, Distribution.make n rv = .ok d ∧ reg2 = dictInsert reg n d := by
  unfold register
  cases hmk : Distribution.make n rv with
  | error e => simp [Except.map]
  | ok d => simp [Except.map, eq_comm]

/-- C8.  Registry last-write-wins: run any sequence of Distribution
registrations (the shared mechanism of CSV parsing and programmatic
registration) against any registry whose keys are currently distinct.
Then distro_by_name returns, for every name that was registered in the
sequence, exactly the Distribution built from the most recent (name, rv)
registration; names not in the sequence keep their prior binding; and the
resulting registry still holds at most one live distribution per name
(its keys are distinct). -/
theorem registry_last_write_wins :
    ∀ (regs : List (String × RV)) (reg reg' : Registry),
    (reg.map Prod.fst).Nodup → registerAll reg regs = .ok reg' →
    ((∀ n rv, lastRV regs n = some rv →
        ∃ d, Distribution.make n rv = .ok d ∧ distro_by_name reg' n = some d)
      ∧ (∀ n, lastRV regs n = none → distro_by_name reg' n = distro_by_name reg n)
      ∧ (reg'.map Prod.fst).Nodup) := by
  intro regs
  induction regs with
  | nil =>
    intro reg reg' hnd hall
    simp only [registerAll] at hall
    cases hall
    refine ⟨?_, ?_, hnd⟩
    · intro n rv h
      simp [lastRV, alookup] at h
    · intro n _
      rfl
  | cons p rest ih =>
    intro reg reg' hnd hall
    obtain ⟨n₀, rv₀⟩ := p
    unfold registerAll at hall
    cases hreg : register reg n₀ rv₀ with
    | error e =>
      rw [hreg] at hall
      cases hall
    | ok reg2 =>
      rw [hreg] at hall
      obtain ⟨d₀, hmk, hins⟩ := register_ok.mp hreg
      subst hins
      have hnd2 := nodup_keys_dictInsert reg n₀ d₀ hnd
      obtain ⟨ih1, ih2, ih3⟩ := ih _ _ hnd2 hall
      refine ⟨?_, ?_, ih3⟩
      · intro n rv h
        rw [lastRV_cons] at h
        cases hrest : lastRV rest n with
        | some rv' =>
          rw [hrest] at h
          cases h
          exact ih1 n rv hrest
        | none =>
          rw [hrest] at h
          by_cases hn : n = n₀
          · rw [if_pos hn] at h
            cases h
            subst hn
            refine ⟨d₀, hmk, ?_⟩
            rw [ih2 n hrest]
            show alookup (dictInsert reg n d₀) n = some d₀
            rw [alookup_dictInsert, if_pos rfl]
          · rw [if_neg hn] at h
            cases h
      · intro n h
        rw [lastRV_cons] at h
        cases hrest : lastRV rest n with
        | some rv' =>
          rw [hrest] at h
          cases h
        | none =>
          rw [hrest] at h
          by_cases hn : n = n₀
          · rw [if_pos hn] at h
            cases h
          · rw [ih2 n hrest]
            show alookup (dictInsert reg n₀ d₀) n = alookup reg n
            rw [alookup_dictInsert, if_neg hn]

/-- Witness for C8: two successive registrations under the same name "WOR"
(a triangular, then a uniform); the lookup returns the Distribution built
from the second registration. -/
theorem registry_last_write_wins_witness :
    ∃ d, Distribution.make "WOR" (RV.uniform (Cell.num 2) (Cell.num 5)) = .ok d ∧
      distro_by_name
        [("WOR", { full_name := "WOR", class_name := none, attr_name := "WOR",
                   rv := RV.uniform (Cell.num 2) (Cell.num 5) })] "WOR" = some d := by
  have h := registry_last_write_wins
    [("WOR", RV.triangle (Cell.num 0) (Cell.num 1) (Cell.num 2)),
     ("WOR", RV.uniform (Cell.num 2) (Cell.num 5))] [] _ (by simp) rfl
  exact h.1 "WOR" _ rfl

/-- The shapes handled by read_distributions. -/
def knownShape (s : String) : Prop :=
  s = "binary" ∨ s = "uniform" ∨ s = "triangular" ∨ s = "normal" ∨ s = "lognormal"
    ∨ s = "empirical"

instance (s : String) : Decidable (knownShape s) := by
  unfold knownShape
  infer_instance

/-- The no-bounds/mean/prob condition of the smart-defaults skip
(simulation.py line 70). -/
def allEmptyFields (row : DistroRow) : Prop :=
  row.low_bound = Cell.empty ∧ row.high_bound = Cell.empty ∧ row.mean = Cell.empty ∧
    row.prob_of_yes = Cell.empty

instance (row : DistroRow) : Decidable (allEmptyFields row) := by
  unfold allEmptyFields
  infer_instance

/-- The shape-specific degenerate-row conditions of read_distributions. -/
def degenerateRow (row : DistroRow) : Prop :=
  let s := pyLower row.distribution_type
  (s = "binary" ∧ (row.prob_of_yes = Cell.num 0 ∨ row.prob_of_yes = Cell.num 1))
  ∨ (s = "uniform" ∧ row.low_bound = row.high_bound)
  ∨ (s = "triangular" ∧ row.low_bound = row.high_bound)
  ∨ (s = "normal" ∧ row.SD = Cell.num 0)
  ∨ (s = "lognormal" ∧ row.SD = Cell.num 0)

instance (row : DistroRow) : Decidable (degenerateRow row) := by
  unfold degenerateRow
  infer_instance

theorem processRow_unknown (row : DistroRow) (hname : row.variable_name ≠ "")
    (hskip : ¬ allEmptyFields row) (hu : ¬ knownShape (pyLower row.distribution_type)) :
    processRow row = .error (.system
      ("Unknown distribution shape: '" ++ pyLower row.distribution_type ++ "'")) := by
  have hb : ¬ (pyLower row.distribution_type = "binary") := fun h => hu (Or.inl h)
  have hun : ¬ (pyLower row.distribution_type = "uniform") := fun h => hu (Or.inr (Or.inl h))
  have ht : ¬ (pyLower row.distribution_type = "triangular") :=
    fun h => hu (Or.inr (Or.inr (Or.inl h)))
  have hn : ¬ (pyLower row.distribution_type = "normal") :=
    fun h => hu (Or.inr (Or.inr (Or.inr (Or.inl h))))
  have hl : ¬ (pyLower row.distribution_type = "lognormal") :=
    fun h => hu (Or.inr (Or.inr (Or.inr (Or.inr (Or.inl h)))))
  have he : ¬ (pyLower row.distribution_type = "empirical") :=
    fun h => hu (Or.inr (Or.inr (Or.inr (Or.inr (Or.inr h)))))
  simp [processRow, hname, hb, hun, ht, hn, hl, he]
  intro a b c d
  exact hskip ⟨a, b, c, d⟩

theorem read_distributions_error_of_unknown (rows : List DistroRow)
    (h : ∃ r ∈ rows, r.variable_name ≠ "" ∧ ¬ allEmptyFields r ∧
      ¬ knownShape (pyLower r.distribution_type)) :
    ∀ reg, ∃ e, read_distributions rows reg = .error e := by
  induction rows with
  | nil =>
    obtain ⟨r, hr, -⟩ := h
    cases hr
  | cons r0 rest ih =>
    intro reg
    obtain ⟨r, hr, hprops⟩ := h
    cases hp : processRow r0 with
    | error e => exact ⟨e, by simp [read_distributions, hp]⟩
    | ok o =>
      have hr' : r ∈ rest := by
        rcases List.mem_cons.mp hr with rfl | hr'
        · exact absurd hp (by
            rw [processRow_unknown r hprops.1 hprops.2.1 hprops.2.2]
            simp)
        · exact hr'
      have ihr := ih ⟨r, hr', hprops⟩
      cases o with
      | none =>
        obtain ⟨e, he⟩ := ihr reg
        exact ⟨e, by simp [read_distributions, hp, he]⟩
      | some p =>
        obtain ⟨n, rv⟩ := p
        cases hreg : register reg n rv with
        | error e => exact ⟨e, by simp [read_distributions, hp, hreg]⟩
        | ok reg2 =>
          obtain ⟨e, he⟩ := ihr reg2
          exact ⟨e, by simp [read_distributions, hp, hreg, he]⟩

/-- C3.  The distribution-parsing skip rules are exact: a uniform or
triangular row with low == high, a normal or lognormal row with stdev == 0,
and a binary row with prob_of_yes in 0 or 1 are never registered (the loop
body yields no registration); any row with a known shape that survives the
empty-name and all-fields-empty skips and is not degenerate is registered
under its variable name; a row with an unknown shape makes the loop body
raise an McsSystemError, and the presence of such a row (with a non-empty
name and not all-empty fields) aborts read_distributions with an error. -/
theorem read_distributions_skip_rules (row : DistroRow) (rows : List DistroRow)
    (reg : Registry) :
    (pyLower row.distribution_type = "uniform" → row.low_bound = row.high_bound →
        processRow row = .ok none)
  ∧ (pyLower row.distribution_type = "triangular" → row.low_bound = row.high_bound →
        processRow row = .ok none)
  ∧ (pyLower row.distribution_type = "normal" → row.SD = Cell.num 0 →
        processRow row = .ok none)
  ∧ (pyLower row.distribution_type = "lognormal" → row.SD = Cell.num 0 →
        processRow row = .ok none)
  ∧ (pyLower row.distribution_type = "binary" →
        (row.prob_of_yes = Cell.num 0 ∨ row.prob_of_yes = Cell.num 1) →
        processRow row = .ok none)
  ∧ (row.variable_name ≠ "" →
        ¬ (allEmptyFields row ∧ pyLower row.distribution_type ≠ "empirical") →
        knownShape (pyLower row.distribution_type) → ¬ degenerateRow row →
        ∃ rv, processRow row = .ok (some (row.variable_name, rv)))
  ∧ (row.variable_name ≠ "" → ¬ allEmptyFields row →
        ¬ knownShape (pyLower row.distribution_type) →
        processRow row = .error (.system
          ("Unknown distribution shape: '" ++ pyLower row.distribution_type ++ "'")))
  ∧ ((∃ r ∈ rows, r.variable_name ≠ "" ∧ ¬ allEmptyFields r ∧
        ¬ knownShape (pyLower r.distribution_type)) →
        ∃ e, read_distributions rows reg = .error e) := by
  refine ⟨?_, ?_, ?_, ?_, ?_, ?_, ?_, ?_⟩
  · intro h1 h2
    simp [processRow, h1, h2]
  · intro h1 h2
    simp [processRow, h1, h2]
  · intro h1 h2
    simp [processRow, h1, h2]
  · intro h1 h2
    simp [processRow, h1, h2]
  · intro h1 h2
    rcases h2 with h2 | h2 <;> simp [processRow, h1, h2]
  · intro hname hskip hks hdeg
    rcases hks with hs | hs | hs | hs | hs | hs
    · have hskA : row.low_bound = Cell.empty → row.high_bound = Cell.empty →
          row.mean = Cell.empty → ¬ row.prob_of_yes = Cell.empty := by
        intro a b c d
        exact hskip ⟨⟨a, b, c, d⟩, by simp [hs]⟩
      have hnd : ¬ (row.prob_of_yes = Cell.num 0 ∨ row.prob_of_yes = Cell.num 1) :=
        fun hc => hdeg (Or.inl ⟨hs, hc⟩)
      refine ⟨RV.weighted_binary
        (if row.prob_of_yes = Cell.empty then Cell.num (1/2) else row.prob_of_yes), ?_⟩
      simp [processRow, hname, hs, hnd]
      exact hskA
    · have hskA : row.low_bound = Cell.empty → row.high_bound = Cell.empty →
          row.mean = Cell.empty → ¬ row.prob_of_yes = Cell.empty := by
        intro a b c d
        exact hskip ⟨⟨a, b, c, d⟩, by simp [hs]⟩
      have hnd : ¬ (row.low_bound = row.high_bound) :=
        fun hc => hdeg (Or.inr (Or.inl ⟨hs, hc⟩))
      refine ⟨RV.uniform row.low_bound row.high_bound, ?_⟩
      simp [processRow, hname, hs, hnd]
      exact hskA
    · have hskA : row.low_bound = Cell.empty → row.high_bound = Cell.empty →
          row.mean = Cell.empty → ¬ row.prob_of_yes = Cell.empty := by
        intro a b c d
        exact hskip ⟨⟨a, b, c, d⟩, by simp [hs]⟩
      have hnd : ¬ (row.low_bound = row.high_bound) :=
        fun hc => hdeg (Or.inr (Or.inr (Or.inl ⟨hs, hc⟩)))
      refine ⟨RV.triangle row.low_bound row.default_value row.high_bound, ?_⟩
      simp [processRow, hname, hs, hnd]
      exact hskA
    · have hskA : row.low_bound = Cell.empty → row.high_bound = Cell.empty →
          row.mean = Cell.empty → ¬ row.prob_of_yes = Cell.empty := by
        intro a b c d
        exact hskip ⟨⟨a, b, c, d⟩, by simp [hs]⟩
      have hnd : ¬ (row.SD = Cell.num 0) :=
        fun hc => hdeg (Or.inr (Or.inr (Or.inr (Or.inl ⟨hs, hc⟩))))
      by_cases hlh : row.low_bound = Cell.empty ∨ row.high_bound = Cell.empty
      · refine ⟨RV.normal row.mean row.SD, ?_⟩
        simp [processRow, hname, hs, hnd, hlh]
        exact hskA
      · refine ⟨RV.truncated_normal row.mean row.SD row.low_bound row.high_bound, ?_⟩
        simp [processRow, hname, hs, hnd, hlh]
        exact hskA
    · have hskA : row.low_bound = Cell.empty → row.high_bound = Cell.empty →
          row.mean = Cell.empty → ¬ row.prob_of_yes = Cell.empty := by
        intro a b c d
        exact hskip ⟨⟨a, b, c, d⟩, by simp [hs]⟩
      have hnd : ¬ (row.SD = Cell.num 0) :=
        fun hc => hdeg (Or.inr (Or.inr (Or.inr (Or.inr ⟨hs, hc⟩))))
      by_cases hlh : row.low_bound = Cell.empty ∨ row.high_bound = Cell.empty
      · refine ⟨RV.lognormal row.mean row.SD, ?_⟩
        simp [processRow, hname, hs, hnd, hlh]
        exact hskA
      · refine ⟨RV.truncated_lognormal row.mean row.SD row.low_bound row.high_bound, ?_⟩
        simp [processRow, hname, hs, hnd, hlh]
        exact hskA
    · exact ⟨RV.empirical row.pathname row.variable_name,
        by simp [processRow, hname, hs]⟩
  · intro hname hskip hu
    exact processRow_unknown row hname hskip hu
  · intro h
    exact read_distributions_error_of_unknown rows h reg

/-- A CSV row with only the interesting cells set, for concrete tests. -/
def mkRow (shape name : String) (low high mean sd prob : Cell) : DistroRow :=
  { distribution_type := shape, variable_name := name, low_bound := low,
    high_bound := high, mean := mean, SD := sd, default_value := Cell.empty,
    prob_of_yes := prob, pathname := "" }

/-- Witness for C3: concrete rows exercising every skip rule, a registered
normal row, and an unknown shape aborting the parse. -/
theorem read_distributions_skip_rules_witness :
    processRow (mkRow "Uniform" "API" (Cell.num 3) (Cell.num 3) Cell.empty Cell.empty
      Cell.empty) = .ok none
  ∧ processRow (mkRow "triangular" "t" (Cell.num 1) (Cell.num 1) Cell.empty Cell.empty
      Cell.empty) = .ok none
  ∧ processRow (mkRow "normal" "n0" Cell.empty Cell.empty (Cell.num 4) (Cell.num 0)
      Cell.empty) = .ok none
  ∧ processRow (mkRow "lognormal" "l0" Cell.empty Cell.empty (Cell.num 4) (Cell.num 0)
      Cell.empty) = .ok none
  ∧ processRow (mkRow "binary" "b1" Cell.empty Cell.empty Cell.empty Cell.empty
      (Cell.num 1)) = .ok none
  ∧ (∃ rv, processRow (mkRow "normal" "WOR" Cell.empty Cell.empty (Cell.num 5)
      (Cell.num 2) Cell.empty) = .ok (some ("WOR", rv)))
  ∧ processRow (mkRow "gamma" "g" Cell.empty Cell.empty (Cell.num 1) Cell.empty
      Cell.empty) = .error (.system "Unknown distribution shape: 'gamma'")
  ∧ (∃ e, read_distributions [mkRow "gamma" "g" Cell.empty Cell.empty (Cell.num 1)
      Cell.empty Cell.empty] [] = .error e) := by
  have h1 := read_distributions_skip_rules
    (mkRow "Uniform" "API" (Cell.num 3) (Cell.num 3) Cell.empty Cell.empty Cell.empty) [] []
  have h2 := read_distributions_skip_rules
    (mkRow "triangular" "t" (Cell.num 1) (Cell.num 1) Cell.empty Cell.empty Cell.empty) [] []
  have h3 := read_distributions_skip_rules
    (mkRow "normal" "n0" Cell.empty Cell.empty (Cell.num 4) (Cell.num 0) Cell.empty) [] []
  have h4 := read_distributions_skip_rules
    (mkRow "lognormal" "l0" Cell.empty Cell.empty (Cell.num 4) (Cell.num 0) Cell.empty) [] []
  have h5 := read_distributions_skip_rules
    (mkRow "binary" "b1" Cell.empty Cell.empty Cell.empty Cell.empty (Cell.num 1)) [] []
  have h6 := read_distributions_skip_rules
    (mkRow "normal" "WOR" Cell.empty Cell.empty (Cell.num 5) (Cell.num 2) Cell.empty) [] []
  have h7 := read_distributions_skip_rules
    (mkRow "gamma" "g" Cell.empty Cell.empty (Cell.num 1) Cell.empty Cell.empty)
    [mkRow "gamma" "g" Cell.empty Cell.empty (Cell.num 1) Cell.empty Cell.empty] []
  refine ⟨h1.1 (by decide) (by decide),
          h2.2.1 (by decide) (by decide),
          h3.2.2.1 (by decide) (by decide),
          h4.2.2.2.1 (by decide) (by decide),
          h5.2.2.2.2.1 (by decide) (Or.inr (by decide)),
          h6.2.2.2.2.2.1 (by decide) (by decide) (by decide) (by decide),
          h7.2.2.2.2.2.2.1 (by decide) (by decide) (by decide),
          h7.2.2.2.2.2.2.2 ⟨_, List.mem_singleton.mpr rfl, by decide, by decide, by decide⟩⟩

/-- C10.  For every sim_dir that is not an existing directory, the
Simulation constructor raises McsUserError immediately.  The filesystem
contents (fs.files, and all other directories) are universally
quantified, so the error is returned before reading metadata, the cached
model template, or any other file, and no updated filesystem is
produced (no state is written). -/
theorem simulation_init_requires_directory (parse : ParseFn) (lhsFn : LhsFn)
    (reg : Registry) (fs : FS) (sim_dir : String) (analysis_name : Option String)
    (trials : Nat) (field_names : Option (List String)) (meta_data_only : Bool)
    (h : FS.isDir fs sim_dir = false) :
    Simulation.init parse lhsFn reg fs sim_dir analysis_name trials field_names
        meta_data_only
      = .error (.user ("Simulation directory '" ++ sim_dir ++ "' does not exist.")) := by
  unfold Simulation.init
  simp [h]

/-- Witness for C10: a filesystem that has files but not the directory. -/
theorem simulation_init_requires_directory_witness :
    Simulation.init (fun _ _ _ => .error (.user "unused")) (fun _ _ _ => []) []
        { dirs := ["other"], files := [("sim/metadata.json", .text "junk")] }
        "sim" none 0 none false
      = .error (.user "Simulation directory 'sim' does not exist.") := by
  exact simulation_init_requires_directory (fun _ _ _ => .error (.user "unused"))
    (fun _ _ _ => []) [] { dirs := ["other"], files := [("sim/metadata.json", .text "junk")] }
    "sim" none 0 none false (by decide)

/-- C5 counterexample: reloading a simulation directory with a requested
field name ("B") that is not in the metadata field-name list (["A"]) does
NOT raise a UserError at load time; _load_meta_data succeeds, silently
dropping the unknown name and loading an empty field list. -/
theorem load_meta_data_missing_name_no_error :
    load_meta_data
      { dirs := ["sim"],
        files := [(metadata_path "sim", FileData.metaJson
          { analysis_name := "ana", trials := 3, field_names := some ["A"] })] }
      "sim" (some ["B"])
      = .ok { metadata := { analysis_name := "ana", trials := 3, field_names := some ["A"] },
              field_names := some [], analysis_name := "ana", trials := 3 } := by
  rfl

/-- C5 amended: when a simulation directory is reloaded with a non-empty
requested field-name list, _load_meta_data does not raise for requested
names missing from the metadata; it silently filters the metadata's field
list down to the requested set (preserving metadata order), so unknown
requested names are dropped without any error. -/
theorem load_meta_data_filters_requested (fs : FS) (sim_dir : String)
    (md : MetaData) (ms ns : List String) (hns : ns ≠ [])
    (hread : FS.readFile fs (metadata_path sim_dir) = some (.metaJson md))
    (hms : md.field_names = some ms) :
    load_meta_data fs sim_dir (some ns)
      = .ok { metadata := md, field_names := some (ms.filter (fun m => ns.contains m)),
              analysis_name := md.analysis_name, trials := md.trials } := by
  unfold load_meta_data
  rw [hread]
  cases ns with
  | nil => exact absurd rfl hns
  | cons n ns' =>
    dsimp only
    rw [hms]

/-- Witness for C5 (amended): metadata lists A,B,C; the request asks for
C, A and the unknown Z; the loaded list is A,C and no error is raised. -/
theorem load_meta_data_filters_requested_witness :
    load_meta_data
      { dirs := ["sim"],
        files := [(metadata_path "sim", FileData.metaJson
          { analysis_name := "ana", trials := 7, field_names := some ["A", "B", "C"] })] }
      "sim" (some ["C", "A", "Z"])
      = .ok { metadata := { analysis_name := "ana", trials := 7,
                            field_names := some ["A", "B", "C"] },
              field_names := some ["A", "C"], analysis_name := "ana", trials := 7 } := by
  have h := load_meta_data_filters_requested
    { dirs := ["sim"],
      files := [(metadata_path "sim", FileData.metaJson
        { analysis_name := "ana", trials := 7, field_names := some ["A", "B", "C"] })] }
    "sim" { analysis_name := "ana", trials := 7, field_names := some ["A", "B", "C"] }
    ["A", "B", "C"] ["C", "A", "Z"] (by decide) (by rfl) (by rfl)
  simpa using h

/-- The cache invariant of Simulation.generate: the generateGo loop leaves
the table of the last write cached in trial_data_df. -/
theorem generateGo_last_cached (ana : AnalysisObj) (trials : Nat) (reg : Registry)
    (lhsFn : LhsFn) :
    ∀ (fields : List FieldObj) (ws : List (String × TrialTable)) (c : Option TrialTable),
    c = (ws.map Prod.snd).getLast? →
    ∀ ws' c', generateGo ana trials reg lhsFn fields ws c = .ok (ws', c') →
    c' = (ws'.map Prod.snd).getLast? := by
  intro fields
  induction fields with
  | nil =>
    intro ws c hc ws' c' h
    simp only [generateGo] at h
    cases h
    exact hc
  | cons f rest ih =>
    intro ws c hc ws' c' h
    simp only [generateGo] at h
    cases hg : genField ana f trials reg lhsFn with
    | error e => rw [hg] at h; cases h
    | ok tbl =>
      rw [hg] at h
      refine ih (ws ++ [(f.name, tbl)]) (some tbl) ?_ ws' c' h
      simp

/-- C9.  The trial-data cache is not keyed by subject: once trial_data_df
is populated with a table df, field_trial_data and trial_data return rows
of df for ANY field argument and ANY filesystem contents (fs is
universally quantified and does not occur in the result, so the field's
own trial_data.csv is never read); and a successful generate leaves the
last generated field's table cached in trial_data_df. -/
theorem trial_data_cache_not_keyed_by_subject (fs : FS) (sim_dir : String)
    (field : FieldObj) (df : TrialTable) :
    field_trial_data fs sim_dir field (some df) = (.ok df, some df)
  ∧ (∀ t, trial_data fs sim_dir field (some df) t =
      ((match alookup df.rows t with
        | some vals => Except.ok (df.columns.zip vals)
        | none => Except.error (Err.system ("Trial " ++ toString t ++ " was not found in '"
            ++ trial_data_path sim_dir field.name ++ "'"))), some df))
  ∧ (∀ ana fns trials reg lhsFn writes cache,
      generate ana fns trials reg lhsFn = .ok (writes, cache) →
      cache = (writes.map Prod.snd).getLast?) := by
  refine ⟨rfl, ?_, ?_⟩
  · intro t
    cases halo : alookup df.rows t <;> simp [trial_data, field_trial_data, halo]
  · intro ana fns trials reg lhsFn writes cache h
    unfold generate at h
    cases hcf : chosen_fields ana fns with
    | error e => rw [hcf] at h; cases h
    | ok fields =>
      rw [hcf] at h
      exact generateGo_last_cached ana trials reg lhsFn fields [] none (by simp) writes cache h

/-- A one-attribute field for concrete tests. -/
def testField (nm : String) : FieldObj :=
  { name := nm, enabled := true,
    attr_dict := [("WOR", { explicit := false, value := 0 })], process_dict := [] }

/-- A two-field analysis for concrete tests. -/
def testAnalysis : AnalysisObj :=
  { name := "ana", attr_dict := [],
    field_dict := [("A", testField "A"), ("B", testField "B")] }

/-- A one-entry registry for concrete tests. -/
def testRegistry : Registry :=
  [("WOR", { full_name := "WOR", class_name := none, attr_name := "WOR",
             rv := RV.uniform (Cell.num 0) (Cell.num 1) })]

/-- Witness for C9: a cached table is returned for an unrelated field on
an empty filesystem, and a concrete two-field generate caches the last
field's table. -/
theorem trial_data_cache_not_keyed_by_subject_witness :
    field_trial_data { dirs := [], files := [] } "sim" (testField "B")
        (some { columns := ["WOR"], rows := [(0, [1/2])] })
      = (.ok { columns := ["WOR"], rows := [(0, [1/2])] },
         some { columns := ["WOR"], rows := [(0, [1/2])] })
  ∧ (some { columns := ["WOR"], rows := [(0, [(1:ℚ)/2]), (1, [1/2])] } : Option TrialTable)
      = (([("A", ({ columns := ["WOR"], rows := [(0, [(1:ℚ)/2]), (1, [1/2])] } : TrialTable)),
           ("B", ({ columns := ["WOR"], rows := [(0, [(1:ℚ)/2]), (1, [1/2])] } : TrialTable))]
          ).map Prod.snd).getLast? := by
  refine ⟨(trial_data_cache_not_keyed_by_subject { dirs := [], files := [] } "sim"
    (testField "B") { columns := ["WOR"], rows := [(0, [1/2])] }).1, ?_⟩
  exact (trial_data_cache_not_keyed_by_subject { dirs := [], files := [] } "sim"
    (testField "B") { columns := ["WOR"], rows := [(0, [1/2])] }).2.2
    testAnalysis none 2 testRegistry (fun _ t _ => List.replicate t [1/2]) _ _ rfl

theorem trialAttempt_ok_trial_num (parse : ParseFn) (runner : RunnerFn) (fs : FS)
    (sim_dir xml analysis_name : String) (field_names : Option (List String))
    (curName : String) (cache : Option TrialTable) (t : Nat)
    (row : ResultRow) (nm : String) (c : Option TrialTable)
    (h : trialAttempt parse runner fs sim_dir xml analysis_name field_names curName cache t
        = (.ok row, nm, c)) :
    row.trial_num = t := by
  unfold trialAttempt at h
  repeat' split at h
  all_goals simp only [Prod.mk.injEq, Except.ok.injEq] at h
  all_goals first
    | exact absurd h.1 (by simp)
    | (obtain ⟨h1, -, -⟩ := h
       rw [← h1]
       rfl)

theorem perm_shuffle {α : Type} (A B R : List α) (t : α) :
    (((A ++ [t]) ++ B) ++ R).Perm ((A ++ B) ++ (t :: R)) := by
  have h1 : ((A ++ [t]) ++ B) ++ R = A ++ (([t] ++ B) ++ R) := by
    simp [List.append_assoc]
  have h2 : (A ++ B) ++ (t :: R) = A ++ ((B ++ [t]) ++ R) := by
    simp [List.append_assoc]
  rw [h1, h2]
  exact List.Perm.append_left A (List.Perm.append_right R List.perm_append_comm)

theorem run_field_go_accounting (parse : ParseFn) (runner : RunnerFn) (fs : FS)
    (sim_dir xml analysis_name : String) (field_names : Option (List String)) :
    ∀ (ts : List Nat) (curName : String) (cache : Option TrialTable)
      (completed : Nat) (results : List ResultRow) (failures : List (Nat × Err))
      (o : RunFieldOut),
    run_field_go parse runner fs sim_dir xml analysis_name field_names ts curName cache
        completed results failures = o →
    (o.completed + results.length = completed + o.results.length
      ∧ o.results.length + o.failures.length = results.length + failures.length + ts.length
      ∧ (o.results.map ResultRow.trial_num ++ o.failures.map Prod.fst).Perm
          ((results.map ResultRow.trial_num ++ failures.map Prod.fst) ++ ts)) := by
  intro ts
  induction ts with
  | nil =>
    intro curName cache completed results failures o h
    simp only [run_field_go] at h
    cases h
    exact ⟨rfl, by simp, by simp⟩
  | cons t rest ih =>
    intro curName cache completed results failures o h
    simp only [run_field_go] at h
    cases hA : trialAttempt parse runner fs sim_dir xml analysis_name field_names curName
        cache t with
    | mk res p2 =>
      obtain ⟨nm2, c2⟩ := p2
      rw [hA] at h
      cases res with
      | error e =>
        dsimp only at h
        obtain ⟨ih1, ih2, ih3⟩ := ih nm2 c2 completed results (failures ++ [(t, e)]) o h
        refine ⟨ih1, ?_, ?_⟩
        · simp only [List.length_append, List.length_singleton, List.length_cons, List.length_nil] at ih2 ⊢
          omega
        · have heq : ((results.map ResultRow.trial_num ++
              (failures ++ [(t, e)]).map Prod.fst) ++ rest)
              = ((results.map ResultRow.trial_num ++ failures.map Prod.fst) ++ (t :: rest)) := by
            simp [List.append_assoc]
          exact heq ▸ ih3
      | ok row =>
        dsimp only at h
        have htn : row.trial_num = t :=
          trialAttempt_ok_trial_num parse runner fs sim_dir xml analysis_name field_names
            curName cache t row nm2 c2 hA
        obtain ⟨ih1, ih2, ih3⟩ := ih nm2 c2 (completed + 1) (results ++ [row]) failures o h
        refine ⟨?_, ?_, ?_⟩
        · simp only [List.length_append, List.length_singleton, List.length_cons, List.length_nil] at ih1 ⊢
          omega
        · simp only [List.length_append, List.length_singleton, List.length_cons, List.length_nil] at ih2 ⊢
          omega
        · have hy : (((results ++ [row]).map ResultRow.trial_num ++ failures.map Prod.fst)
              ++ rest)
              = (((results.map ResultRow.trial_num ++ [t]) ++ failures.map Prod.fst) ++ rest) := by
            simp [htn]
          rw [hy] at ih3
          exact ih3.trans (perm_shuffle (results.map ResultRow.trial_num)
            (failures.map Prod.fst) rest t)

/-- C2.  Batch accounting and failure containment for Simulation.run_field
(a total function in this embedding, because the trial loop catches every
per-trial exception and downgrades it to a failures entry): for any batch
of distinct requested trial numbers, completed equals the number of result
rows, completed plus the number of failure records equals the batch size,
the recorded trial numbers of results and failures together are a
permutation of the requested batch, and the two sets are disjoint. -/
theorem run_field_batch_accounting (parse : ParseFn) (runner : RunnerFn) (fs : FS)
    (sim_dir xml analysis_name : String) (field_names : Option (List String))
    (ana0 : Option AnalysisObj) (cache : Option TrialTable) (trials : Nat)
    (field : FieldObj) (trial_nums : Option (List Nat)) (o : RunFieldOut) (fs' : FS)
    (ho : run_field parse runner fs sim_dir xml analysis_name field_names ana0 cache trials
      field trial_nums = (o, fs'))
    (hnd : (trial_nums.getD (List.range trials)).Nodup) :
    o.completed = o.results.length
  ∧ o.completed + o.failures.length = (trial_nums.getD (List.range trials)).length
  ∧ (o.results.map ResultRow.trial_num ++ o.failures.map Prod.fst).Perm
      (trial_nums.getD (List.range trials))
  ∧ (o.results.map ResultRow.trial_num).Disjoint (o.failures.map Prod.fst) := by
  unfold run_field at ho
  rw [Prod.mk.injEq] at ho
  obtain ⟨hgo, -⟩ := ho
  obtain ⟨a1, a2, a3⟩ := run_field_go_accounting parse runner fs sim_dir xml analysis_name
    field_names (trial_nums.getD (List.range trials)) field.name cache 0 [] [] o hgo
  simp only [List.length_nil, List.map_nil, List.nil_append, Nat.add_zero, Nat.zero_add]
    at a1 a2 a3
  have hnodup : (o.results.map ResultRow.trial_num ++ o.failures.map Prod.fst).Nodup :=
    a3.nodup_iff.mpr hnd
  refine ⟨a1, by omega, a3, ?_⟩
  exact (List.nodup_append.mp hnodup).2.2

/-- A trial table used by the concrete run_field scenario. -/
def scenTable : TrialTable :=
  { columns := ["WOR"], rows := [(0, [1/2]), (1, [1/2]), (2, [1/2])] }

/-- A filesystem holding field A's trial data. -/
def scenFs : FS :=
  { dirs := ["sim", "sim/A"],
    files := [("sim/A/trial_data.csv", .trialCsv scenTable)] }

/-- A model with one analysis holding fields A and B. -/
def scenModel : ModelObj := { analysis_dict := [("ana", testAnalysis)] }

/-- A parse oracle that always yields scenModel. -/
def scenParse : ParseFn := fun _ _ _ => .ok scenModel

/-- A fixed evaluator output. -/
def scenEval : EvalOut :=
  { carbon_intensity := 1/2,
    ghg := { venting := 1, flaring := 2, fugitives := 3, combustion := 4,
             land_use := 5, other := 6 } }

/-- An evaluator that raises on trial 1 and succeeds elsewhere. -/
def scenRunner : RunnerFn := fun _ _ t => if t = 1 then .error (.opgee "boom") else .ok scenEval

/-- Witness for C2 at the concrete scenario: three trials 0,1,2 of field A
where trial 1's evaluation raises; run_field returns (does not raise),
completed = 2, the results carry trials 0 and 2, the failures carry
trial 1, and the accounting conclusions hold. -/
theorem run_field_batch_accounting_witness :
    (run_field scenParse scenRunner scenFs "sim" "<m>" "ana" none none none 3
        (testField "A") none).1.completed = 2
  ∧ (run_field scenParse scenRunner scenFs "sim" "<m>" "ana" none none none 3
        (testField "A") none).1.results.map ResultRow.trial_num = [0, 2]
  ∧ (run_field scenParse scenRunner scenFs "sim" "<m>" "ana" none none none 3
        (testField "A") none).1.failures.map Prod.fst = [1]
  ∧ (run_field scenParse scenRunner scenFs "sim" "<m>" "ana" none none none 3
        (testField "A") none).1.completed
      = (run_field scenParse scenRunner scenFs "sim" "<m>" "ana" none none none 3
        (testField "A") none).1.results.length
  ∧ ((run_field scenParse scenRunner scenFs "sim" "<m>" "ana" none none none 3
        (testField "A") none).1.results.map ResultRow.trial_num).Disjoint
      ((run_field scenParse scenRunner scenFs "sim" "<m>" "ana" none none none 3
        (testField "A") none).1.failures.map Prod.fst) := by
  obtain ⟨c1, c2, c3, c4⟩ := run_field_batch_accounting scenParse scenRunner scenFs "sim"
    "<m>" "ana" none none none 3 (testField "A") none _ _ Prod.mk.eta.symm
    (by simp [List.nodup_range])
  exact ⟨by decide, by decide, by decide, c1, c4⟩

theorem string_append_right_ne (a : String) {b c : String} (h : b ≠ c) :
    a ++ b ≠ a ++ c := by
  intro he
  apply h
  have hd : a.data ++ b.data = a.data ++ c.data := by
    have hdc := congrArg String.data he
    simpa [String.data_append] using hdc
  exact String.ext (List.append_cancel_left hd)

theorem readFile_writeFile (fs : FS) (p : String) (d : FileData) (p' : String) :
    FS.readFile (FS.writeFile fs p d) p' = if p' = p then some d else FS.readFile fs p' := by
  simp [FS.readFile, FS.writeFile, alookup_dictInsert]

theorem readFile_mkdirs (fs : FS) (dir p : String) :
    FS.readFile (FS.mkdirs fs dir) p = FS.readFile fs p := by
  unfold FS.mkdirs FS.readFile
  cases h : fs.dirs.contains dir <;> simp [h]

theorem results_path_ne_failures_path (sim_dir fn : String) :
    results_path sim_dir fn ≠ failures_path sim_dir fn := by
  unfold results_path failures_path pathjoin
  exact string_append_right_ne (field_dir sim_dir fn ++ "/") (by decide)

/-- C7.  Output file formats of save_trial_results as invoked at the end
of run_field: the results file is exactly the header
trial_num,CI,total_GHG,combustion,land_use,VFF,other followed by one line
per completed trial, each line being exactly the seven column values (no
index column); the failures file is exactly the header trial_num,message
followed by one line per failed trial whose message is wrapped in double
quotes. -/
theorem save_trial_results_formats (parse : ParseFn) (runner : RunnerFn) (fs : FS)
    (sim_dir xml analysis_name : String) (field_names : Option (List String))
    (ana0 : Option AnalysisObj) (cache : Option TrialTable) (trials : Nat)
    (field : FieldObj) (trial_nums : Option (List Nat)) (o : RunFieldOut) (fs' : FS)
    (ho : run_field parse runner fs sim_dir xml analysis_name field_names ana0 cache trials
      field trial_nums = (o, fs')) :
    FS.readFile fs' (results_path sim_dir o.finalName)
      = some (.csvLines ("trial_num,CI,total_GHG,combustion,land_use,VFF,other"
          :: o.results.map resultRowLine))
  ∧ o.results.length = o.completed
  ∧ FS.readFile fs' (failures_path sim_dir o.finalName)
      = some (.csvLines ("trial_num,message" :: o.failures.map failureLine))
  ∧ (∀ r ∈ o.results, resultRowLine r
      = toString r.trial_num ++ "," ++ ratStr r.ci ++ "," ++ ratStr r.total_GHG ++ ","
        ++ ratStr r.combustion ++ "," ++ ratStr r.land_use ++ "," ++ ratStr r.vff ++ ","
        ++ ratStr r.other)
  ∧ (∀ p ∈ o.failures, failureLine p = toString p.1 ++ ",\"" ++ errMsg p.2 ++ "\"") := by
  unfold run_field at ho
  rw [Prod.mk.injEq] at ho
  obtain ⟨hgo, hsave⟩ := ho
  obtain ⟨a1, -, -⟩ := run_field_go_accounting parse runner fs sim_dir xml analysis_name
    field_names (trial_nums.getD (List.range trials)) field.name cache 0 [] [] o hgo
  rw [hgo] at hsave
  subst hsave
  unfold save_trial_results
  refine ⟨?_, ?_, ?_, ?_, ?_⟩
  · rw [readFile_writeFile,
      if_neg (fun hh => results_path_ne_failures_path sim_dir o.finalName hh),
      readFile_writeFile, if_pos rfl]
    rfl
  · simpa using a1.symm
  · rw [readFile_writeFile, if_pos rfl]
    rfl
  · intro r _
    rfl
  · intro p _
    rfl

/-- Witness for C7: the concrete three-trial scenario; the written results
file is the exact header plus the two completed rows, and the failures
file is the exact header plus the quote-wrapped message of trial 1. -/
theorem save_trial_results_formats_witness :
    FS.readFile (run_field scenParse scenRunner scenFs "sim" "<m>" "ana" none none none 3
        (testField "A") none).2
      (results_path "sim" (run_field scenParse scenRunner scenFs "sim" "<m>" "ana" none none
        none 3 (testField "A") none).1.finalName)
      = some (.csvLines ("trial_num,CI,total_GHG,combustion,land_use,VFF,other"
          :: ((run_field scenParse scenRunner scenFs "sim" "<m>" "ana" none none none 3
            (testField "A") none).1.results.map resultRowLine)))
  ∧ FS.readFile (run_field scenParse scenRunner scenFs "sim" "<m>" "ana" none none none 3
        (testField "A") none).2
      (failures_path "sim" (run_field scenParse scenRunner scenFs "sim" "<m>" "ana" none none
        none 3 (testField "A") none).1.finalName)
      = some (.csvLines ["trial_num,message", "1,\"boom\""]) := by
  obtain ⟨c1, -, c3, -, -⟩ := save_trial_results_formats scenParse scenRunner scenFs "sim"
    "<m>" "ana" none none none 3 (testField "A") none _ _ Prod.mk.eta.symm
  refine ⟨c1, ?_⟩
  rw [c3]
  rfl

/-- The models produced by ModelFile keep each field keyed by its own
name (container.adopt builds dicts keyed by the object's name). -/
def NameConsistent (m : ModelObj) : Prop :=
  ∀ p ∈ m.analysis_dict, ∀ q ∈ p.2.field_dict, q.2.name = q.1

/-- Per-analysis name consistency. -/
def AnaConsistent (ana : AnalysisObj) : Prop :=
  ∀ q ∈ ana.field_dict, q.2.name = q.1

theorem alookup_mem {κ α : Type} [DecidableEq κ] :
    ∀ (l : List (κ × α)) (k : κ) (v : α), alookup l k = some v → (k, v) ∈ l := by
  intro l
  induction l with
  | nil => intro k v h; cases h
  | cons p rest ih =>
    intro k v h
    unfold alookup at h
    by_cases hk : k = p.1
    · rw [if_pos hk] at h
      rw [Option.some.injEq] at h
      refine List.mem_cons.mpr (Or.inl ?_)
      rw [hk, ← h]
    · rw [if_neg hk] at h
      right
      exact ih k v h

theorem get_field_name {ana : AnalysisObj} {n : String} {f : FieldObj}
    (hc : AnaConsistent ana) (hg : get_field ana n = .ok f) : f.name = n := by
  unfold get_field at hg
  cases halo : alookup ana.field_dict n with
  | none => rw [halo] at hg; cases hg
  | some f' =>
    rw [halo] at hg
    rw [Except.ok.injEq] at hg
    rw [← hg]
    exact hc (n, f') (alookup_mem ana.field_dict n f' halo)

theorem load_model_ana_consistent {parse : ParseFn} {xml aname : String}
    {fns : Option (List String)} {ana : AnalysisObj}
    (hwf : ∀ x a f m, parse x a f = .ok m → NameConsistent m)
    (h : load_model parse xml aname fns = .ok ana) : AnaConsistent ana := by
  unfold load_model at h
  cases hp : parse xml (some [aname]) fns with
  | error e => rw [hp] at h; cases h
  | ok m =>
    rw [hp] at h
    dsimp only at h
    cases hga : get_analysis m aname with
    | none => rw [hga] at h; cases h
    | some a =>
      rw [hga] at h
      rw [Except.ok.injEq] at h
      rw [← h]
      exact hwf _ _ _ m hp (aname, a) (alookup_mem m.analysis_dict aname a hga)

/-- The table a trial effectively reads: the cache when populated, else
the field's trial_data.csv. -/
def effTbl (cache : Option TrialTable) (fs : FS) (path : String) : Except Err TrialTable :=
  match cache with
  | some t => .ok t
  | none => readTrialCsv fs path

theorem trial_data_fst (fs : FS) (sd : String) (f : FieldObj)
    (cache : Option TrialTable) (t : Nat) :
    (trial_data fs sd f cache t).1 =
      match effTbl cache fs (trial_data_path sd f.name) with
      | .error e => .error e
      | .ok df =>
        match alookup df.rows t with
        | some vals => .ok (df.columns.zip vals)
        | none => .error (.system ("Trial " ++ toString t ++ " was not found in '"
            ++ trial_data_path sd f.name ++ "'")) := by
  cases cache with
  | some df =>
    cases halo : alookup df.rows t <;>
      simp [trial_data, field_trial_data, effTbl, halo]
  | none =>
    cases hr : readTrialCsv fs (trial_data_path sd f.name) with
    | error e => simp [trial_data, field_trial_data, effTbl, hr]
    | ok df =>
      cases halo : alookup df.rows t <;>
        simp [trial_data, field_trial_data, effTbl, hr, halo]

theorem trial_data_snd (fs : FS) (sd : String) (f : FieldObj)
    (cache : Option TrialTable) (t : Nat) :
    effTbl (trial_data fs sd f cache t).2 fs (trial_data_path sd f.name)
      = effTbl cache fs (trial_data_path sd f.name) := by
  cases cache with
  | some df =>
    cases h : alookup df.rows t <;> simp [trial_data, field_trial_data, effTbl, h]
  | none =>
    cases hr : readTrialCsv fs (trial_data_path sd f.name) with
    | error e => simp [trial_data, field_trial_data, effTbl, hr]
    | ok df =>
      simp only [trial_data, field_trial_data, hr]
      cases alookup df.rows t <;> simp [effTbl, hr]

theorem trialAttempt_pure (parse : ParseFn) (runner : RunnerFn) (fs : FS)
    (sim_dir xml analysis_name : String) (field_names : Option (List String))
    (fieldName : String)
    (hwf : ∀ x a f m, parse x a f = .ok m → NameConsistent m)
    (cache cache₀ : Option TrialTable) (t : Nat)
    (heff : effTbl cache fs (trial_data_path sim_dir fieldName)
      = effTbl cache₀ fs (trial_data_path sim_dir fieldName)) :
    (trialAttempt parse runner fs sim_dir xml analysis_name field_names fieldName cache t).1
        = trialOutcome parse runner fs sim_dir xml analysis_name field_names fieldName cache₀ t
  ∧ (trialAttempt parse runner fs sim_dir xml analysis_name field_names fieldName cache t).2.1
        = fieldName
  ∧ effTbl (trialAttempt parse runner fs sim_dir xml analysis_name field_names fieldName
        cache t).2.2 fs (trial_data_path sim_dir fieldName)
      = effTbl cache₀ fs (trial_data_path sim_dir fieldName) := by
  unfold trialOutcome trialAttempt
  cases hlm : load_model parse xml analysis_name field_names with
  | error e => exact ⟨rfl, rfl, heff⟩
  | ok ana =>
    dsimp only
    have hana := load_model_ana_consistent hwf hlm
    cases hgf : get_field ana fieldName with
    | error e => exact ⟨rfl, rfl, heff⟩
    | ok f =>
      dsimp only
      have hf : f.name = fieldName := get_field_name hana hgf
      cases htd : trial_data fs sim_dir f cache t with
      | mk res c2 =>
        cases htd0 : trial_data fs sim_dir f cache₀ t with
        | mk res0 c02 =>
          have hres : res = res0 := by
            have e1 := trial_data_fst fs sim_dir f cache t
            have e2 := trial_data_fst fs sim_dir f cache₀ t
            rw [htd] at e1
            rw [htd0] at e2
            rw [hf] at e1 e2
            dsimp only at e1 e2
            rw [e1, e2, heff]
          have hc2 : effTbl c2 fs (trial_data_path sim_dir fieldName)
              = effTbl cache₀ fs (trial_data_path sim_dir fieldName) := by
            have e3 := trial_data_snd fs sim_dir f cache t
            rw [htd] at e3
            rw [hf] at e3
            dsimp only at e3
            rw [e3, heff]
          subst hres
          cases res with
          | error e => exact ⟨rfl, hf, hc2⟩
          | ok row =>
            dsimp only
            cases hst : set_trial_data ana fieldName row with
            | error e => exact ⟨rfl, hf, hc2⟩
            | ok ana2 =>
              dsimp only
              cases hgf2 : get_field ana2 fieldName with
              | error e => exact ⟨rfl, hf, hc2⟩
              | ok f2 =>
                dsimp only
                cases hr : runner ana2 f2 t with
                | error e => exact ⟨rfl, hf, hc2⟩
                | ok out => exact ⟨rfl, hf, hc2⟩

theorem run_field_go_pure (parse : ParseFn) (runner : RunnerFn) (fs : FS)
    (sim_dir xml analysis_name : String) (field_names : Option (List String))
    (fieldName : String) (cache₀ : Option TrialTable)
    (hwf : ∀ x a f m, parse x a f = .ok m → NameConsistent m) :
    ∀ (ts : List Nat) (cache : Option TrialTable),
    effTbl cache fs (trial_data_path sim_dir fieldName)
      = effTbl cache₀ fs (trial_data_path sim_dir fieldName) →
    ∀ (completed : Nat) (results : List ResultRow) (failures : List (Nat × Err))
      (o : RunFieldOut),
    run_field_go parse runner fs sim_dir xml analysis_name field_names ts fieldName cache
        completed results failures = o →
    (o.results = results ++ ts.filterMap (fun t =>
        (trialOutcome parse runner fs sim_dir xml analysis_name field_names fieldName
          cache₀ t).toOption)
      ∧ o.failures = failures ++ ts.filterMap (fun t =>
          match trialOutcome parse runner fs sim_dir xml analysis_name field_names fieldName
            cache₀ t with
          | .error e => some (t, e)
          | .ok _ => none)
      ∧ o.finalName = fieldName) := by
  intro ts
  induction ts with
  | nil =>
    intro cache heff completed results failures o h
    simp only [run_field_go] at h
    cases h
    exact ⟨by simp, by simp, rfl⟩
  | cons t rest ih =>
    intro cache heff completed results failures o h
    simp only [run_field_go] at h
    obtain ⟨hout, hname, hcache⟩ := trialAttempt_pure parse runner fs sim_dir xml
      analysis_name field_names fieldName hwf cache cache₀ t heff
    cases hA : trialAttempt parse runner fs sim_dir xml analysis_name field_names fieldName
        cache t with
    | mk res p2 =>
      obtain ⟨nm2, c2⟩ := p2
      rw [hA] at h hout hname hcache
      dsimp only at hout hname hcache
      rw [hname] at h
      cases res with
      | error e =>
        dsimp only at h
        have hfo : trialOutcome parse runner fs sim_dir xml analysis_name field_names
            fieldName cache₀ t = .error e := hout.symm
        obtain ⟨ih1, ih2, ih3⟩ := ih c2 hcache completed results (failures ++ [(t, e)]) o h
        refine ⟨?_, ?_, ih3⟩
        · rw [ih1, List.filterMap_cons]
          simp [hfo, Except.toOption]
        · rw [ih2, List.filterMap_cons]
          simp [hfo]
      | ok row =>
        dsimp only at h
        have hfo : trialOutcome parse runner fs sim_dir xml analysis_name field_names
            fieldName cache₀ t = .ok row := hout.symm
        obtain ⟨ih1, ih2, ih3⟩ := ih c2 hcache (completed + 1) (results ++ [row]) failures o h
        refine ⟨?_, ?_, ih3⟩
        · rw [ih1, List.filterMap_cons]
          simp [hfo, Except.toOption]
        · rw [ih2, List.filterMap_cons]
          simp [hfo]

/-- C1.  Trial isolation in Simulation.run_field: provided the parser
builds models whose field dicts are keyed by field name (as
container.adopt does), every processed trial's recorded outcome equals
trialOutcome — a function whose definition starts by re-instantiating a
fresh model from the cached template string (load_model) and re-resolving
the subject handle in that fresh model (get_field) before any trial data
is applied or the evaluator invoked, and whose only inputs are the run's
read-only data (template string, oracles, initial trial-table state,
field name, trial number).  Moreover run_field's entire output is
independent of the model/analysis state at entry (the state a previous
trial may have mutated), so no trial's evaluation uses a model object
mutated by a previous trial. -/
theorem run_field_trial_isolation (parse : ParseFn) (runner : RunnerFn) (fs : FS)
    (sim_dir xml analysis_name : String) (field_names : Option (List String))
    (ana0 ana0' : Option AnalysisObj) (cache : Option TrialTable) (trials : Nat)
    (field : FieldObj) (trial_nums : Option (List Nat)) (o : RunFieldOut) (fs' : FS)
    (hwf : ∀ x a f m, parse x a f = .ok m → NameConsistent m)
    (ho : run_field parse runner fs sim_dir xml analysis_name field_names ana0 cache trials
      field trial_nums = (o, fs')) :
    (o.results = (trial_nums.getD (List.range trials)).filterMap (fun t =>
        (trialOutcome parse runner fs sim_dir xml analysis_name field_names field.name
          cache t).toOption)
      ∧ o.failures = (trial_nums.getD (List.range trials)).filterMap (fun t =>
          match trialOutcome parse runner fs sim_dir xml analysis_name field_names field.name
            cache t with
          | .error e => some (t, e)
          | .ok _ => none)
      ∧ run_field parse runner fs sim_dir xml analysis_name field_names ana0' cache trials
          field trial_nums
        = run_field parse runner fs sim_dir xml analysis_name field_names ana0 cache trials
          field trial_nums) := by
  unfold run_field at ho
  rw [Prod.mk.injEq] at ho
  obtain ⟨hgo, -⟩ := ho
  obtain ⟨h1, h2, -⟩ := run_field_go_pure parse runner fs sim_dir xml analysis_name
    field_names field.name cache hwf (trial_nums.getD (List.range trials)) cache rfl
    0 [] [] o hgo
  simp only [List.nil_append] at h1 h2
  exact ⟨h1, h2, rfl⟩

/-- Witness for C1 at the concrete scenario: the outputs of the three-trial
run equal the per-trial pure function mapped over 0,1,2, and trial 1's
outcome is exactly the evaluator's failure. -/
theorem run_field_trial_isolation_witness :
    (run_field scenParse scenRunner scenFs "sim" "<m>" "ana" none none none 3
        (testField "A") none).1.results
      = (List.range 3).filterMap (fun t =>
          (trialOutcome scenParse scenRunner scenFs "sim" "<m>" "ana" none "A" none
            t).toOption)
  ∧ (run_field scenParse scenRunner scenFs "sim" "<m>" "ana" none none none 3
        (testField "A") none).1.failures
      = (List.range 3).filterMap (fun t =>
          match trialOutcome scenParse scenRunner scenFs "sim" "<m>" "ana" none "A" none
            t with
          | .error e => some (t, e)
          | .ok _ => none)
  ∧ trialOutcome scenParse scenRunner scenFs "sim" "<m>" "ana" none "A" none 1
      = .error (.opgee "boom") := by
  have hwf : ∀ x a f m, scenParse x a f = .ok m → NameConsistent m := by
    intro x a f m hm
    simp only [scenParse, Except.ok.injEq] at hm
    subst hm
    unfold NameConsistent
    decide
  obtain ⟨c1, c2, -⟩ := run_field_trial_isolation scenParse scenRunner scenFs "sim" "<m>"
    "ana" none none none none 3 (testField "A") none _ _ hwf Prod.mk.eta.symm
  exact ⟨c1, c2, rfl⟩

theorem breakAtDot_none : ∀ l : List Char, breakAtDot l = none → '.' ∉ l := by
  intro l
  induction l with
  | nil =>
    intro _ hmem
    cases hmem
  | cons c rest ih =>
    intro h
    unfold breakAtDot at h
    by_cases hc : c = '.'
    · rw [if_pos hc] at h
      cases h
    · rw [if_neg hc] at h
      cases hb : breakAtDot rest with
      | none =>
        intro hmem
        rcases List.mem_cons.mp hmem with hh | hh
        · exact hc hh.symm
        · exact ih hb hh
      | some p =>
        obtain ⟨pre, post⟩ := p
        rw [hb] at h
        cases h

theorem breakAtDot_some : ∀ (l pre post : List Char), breakAtDot l = some (pre, post) →
    l = pre ++ '.' :: post ∧ '.' ∉ pre := by
  intro l
  induction l with
  | nil =>
    intro pre post h
    cases h
  | cons c rest ih =>
    intro pre post h
    unfold breakAtDot at h
    by_cases hc : c = '.'
    · rw [if_pos hc] at h
      rw [Option.some.injEq, Prod.mk.injEq] at h
      obtain ⟨h1, h2⟩ := h
      subst h1
      subst h2
      subst hc
      exact ⟨rfl, by simp⟩
    · rw [if_neg hc] at h
      cases hb : breakAtDot rest with
      | none =>
        rw [hb] at h
        cases h
      | some p =>
        obtain ⟨pre', post'⟩ := p
        rw [hb] at h
        dsimp only at h
        rw [Option.some.injEq, Prod.mk.injEq] at h
        obtain ⟨h1, h2⟩ := h
        subst h1
        subst h2
        obtain ⟨ih1, ih2⟩ := ih pre' post' hb
        refine ⟨by rw [ih1]; rfl, ?_⟩
        intro hmem
        rcases List.mem_cons.mp hmem with hh | hh
        · exact hc hh.symm
        · exact ih2 hh

theorem split_attr_name_bare {s a : String} (h : split_attr_name s = .ok (none, a)) :
    a = s ∧ '.' ∉ s.data := by
  unfold split_attr_name at h
  cases hb : breakAtDot s.data with
  | none =>
    rw [hb] at h
    dsimp only at h
    rw [Except.ok.injEq, Prod.mk.injEq] at h
    exact ⟨h.2.symm, breakAtDot_none s.data hb⟩
  | some p =>
    obtain ⟨pre, post⟩ := p
    rw [hb] at h
    dsimp only at h
    cases hb2 : breakAtDot post with
    | none =>
      rw [hb2] at h
      dsimp only at h
      rw [Except.ok.injEq, Prod.mk.injEq] at h
      exact absurd h.1 (by simp)
    | some q =>
      rw [hb2] at h
      cases h

theorem split_attr_name_qualified {s c a : String}
    (h : split_attr_name s = .ok (some c, a)) :
    s.data = c.data ++ '.' :: a.data ∧ '.' ∉ c.data ∧ '.' ∉ a.data := by
  unfold split_attr_name at h
  cases hb : breakAtDot s.data with
  | none =>
    rw [hb] at h
    dsimp only at h
    rw [Except.ok.injEq, Prod.mk.injEq] at h
    exact absurd h.1 (by simp)
  | some p =>
    obtain ⟨pre, post⟩ := p
    rw [hb] at h
    dsimp only at h
    cases hb2 : breakAtDot post with
    | none =>
      rw [hb2] at h
      dsimp only at h
      rw [Except.ok.injEq, Prod.mk.injEq] at h
      obtain ⟨h1, h2⟩ := h
      obtain ⟨hl, hpre⟩ := breakAtDot_some s.data pre post hb
      rw [Option.some.injEq] at h1
      have hcd : c.data = pre := by rw [← h1]
      have had : a.data = post := by rw [← h2]
      refine ⟨by rw [hcd, had]; exact hl, by rw [hcd]; exact hpre, ?_⟩
      rw [had]
      exact breakAtDot_none post hb2
    | some q =>
      rw [hb2] at h
      cases h

/-- The shape of a distribution's trial-table column name: for the
default-subject classes (bare or Field) it is the dot-free attribute name;
for any other owning class it is the dotted fully-qualified name. -/
theorem colName_cases {d : Distribution}
    (hs : split_attr_name d.full_name = .ok (d.class_name, d.attr_name)) :
    (colName d = d.attr_name ∧ '.' ∉ (colName d).data
      ∧ (d.class_name = none ∨ d.class_name = some "Field"))
  ∨ (colName d = d.full_name ∧ '.' ∈ (colName d).data) := by
  cases hcd : d.class_name with
  | none =>
    rw [hcd] at hs
    obtain ⟨h1, h2⟩ := split_attr_name_bare hs
    left
    have hcn : colName d = d.full_name := by simp [colName, hcd]
    exact ⟨by rw [hcn, ← h1], by rw [hcn]; exact h2, Or.inl rfl⟩
  | some c =>
    by_cases hc : c = "Field"
    · subst hc
      rw [hcd] at hs
      obtain ⟨-, -, h3⟩ := split_attr_name_qualified hs
      left
      have hcn : colName d = d.attr_name := by simp [colName, hcd]
      exact ⟨hcn, by rw [hcn]; exact h3, Or.inr rfl⟩
    · rw [hcd] at hs
      obtain ⟨h1, -, -⟩ := split_attr_name_qualified hs
      right
      have hcn : colName d = d.full_name := by
        simp [colName, hcd]
        intro hh
        exact absurd hh hc
      refine ⟨hcn, ?_⟩
      rw [hcn, h1]
      simp

theorem sim_lookup_fieldish (ana : AnalysisObj) (field : FieldObj) {d : Distribution}
    (hs : split_attr_name d.full_name = .ok (d.class_name, d.attr_name))
    (hcd : d.class_name = none ∨ d.class_name = some "Field") :
    sim_lookup ana field d.full_name =
      match alookup field.attr_dict d.attr_name with
      | some a => .ok a
      | none => .error (.user ("The attribute '" ++ d.attr_name ++ "' was not found")) := by
  unfold sim_lookup
  rw [hs]
  have hlt : lookupTarget ana field d.class_name = .ok field.attr_dict := by
    rcases hcd with hcd | hcd <;> simp [lookupTarget, hcd]
  dsimp only
  rw [hlt]

/-- Two distributions whose trial-table column names collide either are
the same registry entry (same fully-qualified name) or resolve to the
same attribute lookup on the subject. -/
theorem colName_collision (ana : AnalysisObj) (field : FieldObj) {d d' : Distribution}
    (hs : split_attr_name d.full_name = .ok (d.class_name, d.attr_name))
    (hs' : split_attr_name d'.full_name = .ok (d'.class_name, d'.attr_name))
    (hcol : colName d = colName d') :
    d.full_name = d'.full_name
    ∨ sim_lookup ana field d.full_name = sim_lookup ana field d'.full_name := by
  rcases colName_cases hs with ⟨ha1, ha2, ha3⟩ | ⟨hb1, hb2⟩
  · rcases colName_cases hs' with ⟨hc1, hc2, hc3⟩ | ⟨hd1, hd2⟩
    · right
      rw [sim_lookup_fieldish ana field hs ha3, sim_lookup_fieldish ana field hs' hc3]
      have hattr : d.attr_name = d'.attr_name := by
        rw [← ha1, ← hc1, hcol]
      rw [hattr]
    · rw [hcol] at ha2
      exact absurd hd2 ha2
  · rcases colName_cases hs' with ⟨hc1, hc2, hc3⟩ | ⟨hd1, hd2⟩
    · rw [← hcol] at hc2
      exact absurd hb2 hc2
    · left
      rw [← hb1, ← hd1, hcol]

/-- A registry as built by Distribution.__init__: every entry is stored
under its own fully-qualified name, carries the split of that name, and
keys are distinct (it is a dict). -/
def WFRegistry (reg : Registry) : Prop :=
  (∀ p ∈ reg, p.2.full_name = p.1
    ∧ split_attr_name p.2.full_name = .ok (p.2.class_name, p.2.attr_name))
  ∧ (reg.map Prod.fst).Nodup

theorem wf_registry_inj {reg : Registry} (hwr : WFRegistry reg) :
    ∀ d ∈ distributions reg, ∀ d' ∈ distributions reg,
    d.full_name = d'.full_name → d = d' := by
  intro d hd d' hd' hfn
  obtain ⟨hprops, hnd⟩ := hwr
  obtain ⟨p, hp, hpd⟩ := List.mem_map.mp hd
  obtain ⟨p', hp', hpd'⟩ := List.mem_map.mp hd'
  have h1 : p.1 = p'.1 := by
    rw [← (hprops p hp).1, ← (hprops p' hp').1, hpd, hpd', hfn]
  have h2 := List.inj_on_of_nodup_map hnd hp hp' h1
  rw [← hpd, ← hpd', h2]

theorem collectCols_mem (ana : AnalysisObj) (field : FieldObj) :
    ∀ (ds : List Distribution) (pairs : List (RV × String)),
    collectCols ana field ds = .ok pairs →
    ∀ pr ∈ pairs, ∃ d ∈ ds, pr.2 = colName d
      ∧ ∃ a, sim_lookup ana field d.full_name = .ok a ∧ a.explicit = false := by
  intro ds
  induction ds with
  | nil =>
    intro pairs h pr hpr
    simp only [collectCols] at h
    cases h
    cases hpr
  | cons d rest ih =>
    intro pairs h pr hpr
    unfold collectCols at h
    cases hl : sim_lookup ana field d.full_name with
    | error e =>
      rw [hl] at h
      cases h
    | ok target =>
      rw [hl] at h
      cases hc : collectCols ana field rest with
      | error e =>
        rw [hc] at h
        cases h
      | ok tail =>
        rw [hc] at h
        dsimp only at h
        by_cases hexp : target.explicit
        · rw [if_pos hexp] at h
          rw [Except.ok.injEq] at h
          subst h
          obtain ⟨d', hd', hcol, a, hla, hexpa⟩ := ih tail hc pr hpr
          exact ⟨d', List.mem_cons_of_mem d hd', hcol, a, hla, hexpa⟩
        · rw [if_neg hexp] at h
          rw [Except.ok.injEq] at h
          subst h
          rcases List.mem_cons.mp hpr with hh | hh
          · refine ⟨d, List.mem_cons_self d rest, by rw [hh], target, hl, ?_⟩
            exact bool_eq_false hexp
          · obtain ⟨d', hd', hcol, a, hla, hexpa⟩ := ih tail hc pr hh
            exact ⟨d', List.mem_cons_of_mem d hd', hcol, a, hla, hexpa⟩

/-- The exclusion direction of C4 at one field: a distribution whose
target attribute on the field is pinned explicit contributes no column. -/
theorem genField_excludes_explicit (ana : AnalysisObj) (field : FieldObj) (trials : Nat)
    (reg : Registry) (lhsFn : LhsFn) (tbl : TrialTable)
    (hwr : WFRegistry reg)
    (hok : genField ana field trials reg lhsFn = .ok tbl)
    (d : Distribution) (hd : d ∈ distributions reg) (a : AttrObj)
    (hla : sim_lookup ana field d.full_name = .ok a) (hexp : a.explicit = true) :
    colName d ∉ tbl.columns := by
  unfold genField at hok
  cases hcc : collectCols ana field (distributions reg) with
  | error e =>
    rw [hcc] at hok
    cases hok
  | ok pairs =>
    rw [hcc] at hok
    dsimp only at hok
    by_cases hemp : pairs = []
    · rw [if_pos hemp] at hok
      cases hok
    · rw [if_neg hemp] at hok
      rw [Except.ok.injEq] at hok
      intro hmem
      rw [← hok] at hmem
      dsimp only at hmem
      obtain ⟨pr, hpr, hprcol⟩ := List.mem_map.mp hmem
      obtain ⟨d', hd', hcol, a', hla', hexpa'⟩ :=
        collectCols_mem ana field (distributions reg) pairs hcc pr hpr
      have hcoll : colName d = colName d' := by rw [← hprcol, hcol]
      have hsd := ((hwr.1 _ (List.mem_map.mp hd).choose_spec.1).2)
      rcases colName_collision ana field
          (by
            obtain ⟨p, hp, hpd⟩ := List.mem_map.mp hd
            have := (hwr.1 p hp).2
            rw [hpd] at this
            exact this)
          (by
            obtain ⟨p, hp, hpd⟩ := List.mem_map.mp hd'
            have := (hwr.1 p hp).2
            rw [hpd] at this
            exact this)
          hcoll with hfn | hlk
      · have hdd : d = d' := wf_registry_inj hwr d hd d' hd' hfn
        rw [← hdd] at hla'
        rw [hla] at hla'
        rw [Except.ok.injEq] at hla'
        rw [← hla'] at hexpa'
        rw [hexp] at hexpa'
        cases hexpa'
      · rw [hlk, hla'] at hla
        rw [Except.ok.injEq] at hla
        rw [← hla] at hexp
        rw [hexpa'] at hexp
        cases hexp

theorem collectCols_all_explicit (ana : AnalysisObj) (field : FieldObj) :
    ∀ ds : List Distribution,
    (∀ d ∈ ds, ∃ a, sim_lookup ana field d.full_name = .ok a ∧ a.explicit = true) →
    collectCols ana field ds = .ok [] := by
  intro ds
  induction ds with
  | nil => intro _; rfl
  | cons d rest ih =>
    intro hall
    obtain ⟨a, hla, hexp⟩ := hall d (List.mem_cons_self d rest)
    have hrest := ih (fun d' hd' => hall d' (List.mem_cons_of_mem d hd'))
    unfold collectCols
    rw [hla, hrest]
    dsimp only
    rw [if_pos hexp]

theorem genField_zero_columns (ana : AnalysisObj) (field : FieldObj) (trials : Nat)
    (reg : Registry)
    (hall : ∀ d ∈ distributions reg, ∃ a, sim_lookup ana field d.full_name = .ok a
      ∧ a.explicit = true) :
    ∀ lhsFn : LhsFn, genField ana field trials reg lhsFn
      = .error (.user ("Can't run MCS: all parameters with distributions have explicit values in "
        ++ field.name)) := by
  intro lhsFn
  have hcc := collectCols_all_explicit ana field (distributions reg) hall
  unfold genField
  rw [hcc]
  dsimp only
  rw [if_pos rfl]

theorem generateGo_fields (ana : AnalysisObj) (trials : Nat) (reg : Registry)
    (lhsFn : LhsFn) :
    ∀ (fields : List FieldObj) (ws : List (String × TrialTable)) (c : Option TrialTable)
      (ws' : List (String × TrialTable)) (c' : Option TrialTable),
    generateGo ana trials reg lhsFn fields ws c = .ok (ws', c') →
    ((∀ x ∈ ws, x ∈ ws')
      ∧ ∀ field ∈ fields, ∃ tbl, genField ana field trials reg lhsFn = .ok tbl
          ∧ (field.name, tbl) ∈ ws') := by
  intro fields
  induction fields with
  | nil =>
    intro ws c ws' c' h
    simp only [generateGo] at h
    rw [Except.ok.injEq, Prod.mk.injEq] at h
    obtain ⟨h1, -⟩ := h
    subst h1
    exact ⟨fun x hx => hx, fun field hf => absurd hf (List.not_mem_nil field)⟩
  | cons f rest ih =>
    intro ws c ws' c' h
    simp only [generateGo] at h
    cases hg : genField ana f trials reg lhsFn with
    | error e =>
      rw [hg] at h
      cases h
    | ok tbl =>
      rw [hg] at h
      obtain ⟨hsub, hflds⟩ := ih (ws ++ [(f.name, tbl)]) (some tbl) ws' c' h
      refine ⟨fun x hx => hsub x (List.mem_append_left _ hx), ?_⟩
      intro field hf
      rcases List.mem_cons.mp hf with rfl | hf'
      · exact ⟨tbl, hg, hsub (field.name, tbl)
          (List.mem_append_right _ (List.mem_singleton.mpr rfl))⟩
      · exact hflds field hf'

/-- C4.  Explicit values override distributions in Simulation.generate:
for any subject (field) among the chosen fields of a successful generate,
the field's written trial table excludes the column of every registered
distribution whose target attribute on that field is pinned explicit; and
when every registered distribution's target attribute on a field is
explicit, the per-field generation fails with exactly the McsUserError of
simulation.py line 403, for every LHS oracle — i.e. before any sampling
occurs. -/
theorem generate_explicit_overrides (ana : AnalysisObj) (fns : Option (List String))
    (trials : Nat) (reg : Registry) (lhsFn : LhsFn) (field : FieldObj)
    (hwr : WFRegistry reg) :
    (∀ writes cache, generate ana fns trials reg lhsFn = .ok (writes, cache) →
      ∀ fields, chosen_fields ana fns = .ok fields → field ∈ fields →
      ∃ tbl, genField ana field trials reg lhsFn = .ok tbl ∧ (field.name, tbl) ∈ writes
        ∧ ∀ d ∈ distributions reg, ∀ a, sim_lookup ana field d.full_name = .ok a →
            a.explicit = true → colName d ∉ tbl.columns)
  ∧ ((∀ d ∈ distributions reg, ∃ a, sim_lookup ana field d.full_name = .ok a
        ∧ a.explicit = true) →
      ∀ lhsFn' : LhsFn, genField ana field trials reg lhsFn'
        = .error (.user
          ("Can't run MCS: all parameters with distributions have explicit values in "
            ++ field.name))) := by
  constructor
  · intro writes cache hgen fields hcf hmem
    unfold generate at hgen
    rw [hcf] at hgen
    obtain ⟨-, hflds⟩ := generateGo_fields ana trials reg lhsFn fields [] none writes cache hgen
    obtain ⟨tbl, hg, hw⟩ := hflds field hmem
    refine ⟨tbl, hg, hw, ?_⟩
    intro d hd a hla hexp
    exact genField_excludes_explicit ana field trials reg lhsFn tbl hwr hg d hd a hla hexp
  · exact genField_zero_columns ana field trials reg

/-- A field with one explicit and one non-explicit attribute. -/
def fieldEx : FieldObj :=
  { name := "E", enabled := true,
    attr_dict := [("WOR", { explicit := true, value := 3 }),
                  ("API", { explicit := false, value := 0 })],
    process_dict := [] }

/-- An analysis holding fieldEx. -/
def anaEx : AnalysisObj :=
  { name := "ana", attr_dict := [], field_dict := [("E", fieldEx)] }

/-- A field with every attribute explicit. -/
def fieldAllEx : FieldObj :=
  { name := "F", enabled := true,
    attr_dict := [("WOR", { explicit := true, value := 3 }),
                  ("API", { explicit := true, value := 1 })],
    process_dict := [] }

/-- An analysis holding fieldAllEx. -/
def anaAllEx : AnalysisObj :=
  { name := "ana", attr_dict := [], field_dict := [("F", fieldAllEx)] }

/-- The WOR distribution entry. -/
def dWOR : Distribution :=
  { full_name := "WOR", class_name := none, attr_name := "WOR",
    rv := RV.uniform (Cell.num 0) (Cell.num 1) }

/-- The API distribution entry. -/
def dAPI : Distribution :=
  { full_name := "API", class_name := none, attr_name := "API",
    rv := RV.uniform (Cell.num 1) (Cell.num 2) }

/-- A two-distribution registry on WOR and API. -/
def regEx : Registry := [("WOR", dWOR), ("API", dAPI)]

/-- Witness for C4: on a field where WOR is pinned explicit, the generated
table has no WOR column; on a field where every distributed parameter is
explicit, per-field generation fails with the exact McsUserError. -/
theorem generate_explicit_overrides_witness :
    (∃ tbl, genField anaEx fieldEx 1 regEx (fun _ t _ => List.replicate t [1]) = .ok tbl
       ∧ "WOR" ∉ tbl.columns)
  ∧ genField anaAllEx fieldAllEx 1 regEx (fun _ t _ => List.replicate t [1])
      = .error (.user
        ("Can't run MCS: all parameters with distributions have explicit values in "
          ++ fieldAllEx.name)) := by
  have hwr : WFRegistry regEx := by
    unfold WFRegistry
    constructor
    · decide
    · decide
  constructor
  · obtain ⟨tbl, hg, -, hexcl⟩ := (generate_explicit_overrides anaEx none 1 regEx
      (fun _ t _ => List.replicate t [1]) fieldEx hwr).1 _ _ rfl _ rfl
      (List.mem_singleton.mpr rfl)
    refine ⟨tbl, hg, ?_⟩
    exact hexcl dWOR (by decide) { explicit := true, value := 3 } rfl rfl
  · refine (generate_explicit_overrides anaAllEx none 1 regEx
      (fun _ t _ => List.replicate t [1]) fieldAllEx hwr).2 ?_
      (fun _ t _ => List.replicate t [1])
    intro d hd
    have hd' : d = dWOR ∨ d = dAPI := by
      simpa [distributions, regEx] using hd
    rcases hd' with rfl | rfl
    · exact ⟨{ explicit := true, value := 3 }, rfl, rfl⟩
    · exact ⟨{ explicit := true, value := 1 }, rfl, rfl⟩

theorem data_getLast_pathjoin (a b : String) (hb : b.data ≠ []) :
    (pathjoin a b).data.getLast? = b.data.getLast? := by
  unfold pathjoin
  rw [String.data_append, String.data_append]
  rw [List.getLast?_append_of_ne_nil _ hb]

theorem ne_of_data_getLast_ne {s t : String}
    (h : s.data.getLast? ≠ t.data.getLast?) : s ≠ t := by
  intro he
  exact h (by rw [he])

theorem model_path_ne_meta_path (sim_dir : String) :
    model_file_path sim_dir ≠ metadata_path sim_dir := by
  apply ne_of_data_getLast_ne
  unfold model_file_path metadata_path
  rw [data_getLast_pathjoin _ _ (by decide), data_getLast_pathjoin _ _ (by decide)]
  decide

theorem trial_path_ne_model_path (sim_dir fn : String) :
    trial_data_path sim_dir fn ≠ model_file_path sim_dir := by
  apply ne_of_data_getLast_ne
  unfold trial_data_path model_file_path
  rw [data_getLast_pathjoin _ _ (by decide), data_getLast_pathjoin _ _ (by decide)]
  decide

theorem trial_path_ne_meta_path (sim_dir fn : String) :
    trial_data_path sim_dir fn ≠ metadata_path sim_dir := by
  apply ne_of_data_getLast_ne
  unfold trial_data_path metadata_path
  rw [data_getLast_pathjoin _ _ (by decide), data_getLast_pathjoin _ _ (by decide)]
  decide

theorem alookup_filter_out {α : Type} (pred : String → Bool) :
    ∀ (l : List (String × α)) (p : String), pred p = true →
    alookup (l.filter (fun f => ¬ pred f.1)) p = none := by
  intro l
  induction l with
  | nil => intro p _; rfl
  | cons q rest ih =>
    intro p hp
    by_cases hq : pred q.1
    · have : (q :: rest).filter (fun f => ¬ pred f.1)
          = rest.filter (fun f => ¬ pred f.1) := by
        simp [List.filter_cons, hq]
      rw [this]
      exact ih p hp
    · have : (q :: rest).filter (fun f => ¬ pred f.1)
          = q :: rest.filter (fun f => ¬ pred f.1) := by
        simp [List.filter_cons, hq]
      rw [this]
      unfold alookup
      have hne : ¬ p = q.1 := by
        intro hh
        rw [hh] at hp
        exact hq hp
      rw [if_neg hne]
      exact ih p hp

theorem readFile_removeTree_under (fs : FS) (root p : String)
    (h : isUnder root p = true) :
    FS.readFile (FS.removeTree fs root) p = none := by
  unfold FS.readFile FS.removeTree
  exact alookup_filter_out (fun q => isUnder root q) fs.files p h

theorem isDir_writeFile (fs : FS) (p : String) (d : FileData) (q : String) :
    FS.isDir (FS.writeFile fs p d) q = FS.isDir fs q := rfl

theorem isDir_mkdirs_self (fs : FS) (d : String) :
    FS.isDir (FS.mkdirs fs d) d = true := by
  unfold FS.isDir FS.mkdirs
  cases h : fs.dirs.contains d with
  | true => exact h
  | false => simp

theorem isDir_mkdirs_mono (fs : FS) (d q : String) (h : FS.isDir fs q = true) :
    FS.isDir (FS.mkdirs fs d) q = true := by
  unfold FS.isDir FS.mkdirs
  unfold FS.isDir at h
  cases hc : fs.dirs.contains d with
  | true => exact h
  | false =>
    have hq : q ∈ fs.dirs := by simpa using h
    simp [hq]

theorem isDir_applyTrialWrites (sim_dir : String) :
    ∀ (writes : List (String × TrialTable)) (fsx : FS) (q : String),
    FS.isDir fsx q = true → FS.isDir (applyTrialWrites sim_dir fsx writes) q = true := by
  intro writes
  induction writes with
  | nil => intro fsx q h; exact h
  | cons w rest ih =>
    intro fsx q h
    unfold applyTrialWrites
    apply ih
    rw [isDir_writeFile]
    exact isDir_mkdirs_mono _ _ _ h

theorem readFile_applyTrialWrites (sim_dir : String) :
    ∀ (writes : List (String × TrialTable)) (fsx : FS) (p : String),
    (∀ fn, p ≠ trial_data_path sim_dir fn) →
    FS.readFile (applyTrialWrites sim_dir fsx writes) p = FS.readFile fsx p := by
  intro writes
  induction writes with
  | nil => intro fsx p _; rfl
  | cons w rest ih =>
    intro fsx p hp
    unfold applyTrialWrites
    rw [ih _ p hp, readFile_writeFile, if_neg (hp w.1), readFile_mkdirs]

theorem readFile_applyTrialWrites_isSome (sim_dir : String) :
    ∀ (writes : List (String × TrialTable)) (fsx : FS) (p : String),
    (FS.readFile (applyTrialWrites sim_dir fsx writes) p).isSome →
    (FS.readFile fsx p).isSome ∨ ∃ fn, p = trial_data_path sim_dir fn := by
  intro writes
  induction writes with
  | nil => intro fsx p h; exact Or.inl h
  | cons w rest ih =>
    intro fsx p h
    unfold applyTrialWrites at h
    rcases ih _ p h with hh | hh
    · rw [readFile_writeFile] at hh
      by_cases hpw : p = trial_data_path sim_dir w.1
      · exact Or.inr ⟨w.1, hpw⟩
      · rw [if_neg hpw, readFile_mkdirs] at hh
        exact Or.inl hh
    · exact Or.inr hh

theorem init_with_name_spec (parse : ParseFn) (lhsFn : LhsFn) (reg : Registry) (fs : FS)
    (sim_dir aname : String) (trials : Nat) (fns : Option (List String))
    (st : SimSt) (fs' : FS)
    (hok : Simulation.init parse lhsFn reg fs sim_dir (some aname) trials fns false
      = .ok (st, fs')) :
    st.field_names = fns
    ∧ ∃ writes, fs' = applyTrialWrites sim_dir
        (FS.writeFile fs (metadata_path sim_dir)
          (.metaJson { analysis_name := aname, trials := trials, field_names := fns }))
        writes := by
  unfold Simulation.init initAfterMeta at hok
  simp only [Bool.true_and, Bool.false_and, Bool.and_self, Bool.false_eq_true, if_true,
    ite_true, ite_false] at hok
  by_cases hdir : FS.isDir fs sim_dir = true
  case neg =>
    rw [if_pos (by simp [Bool.not_eq_true] at hdir ⊢; exact hdir)] at hok
    cases hok
  case pos =>
    rw [if_neg (by simp [hdir])] at hok
    cases hread : FS.readFile fs (model_file_path sim_dir) with
    | none =>
      rw [hread] at hok
      exact absurd hok (by simp)
    | some fd =>
      rw [hread] at hok
      cases fd with
      | metaJson m => exact absurd hok (by simp)
      | trialCsv t => exact absurd hok (by simp)
      | csvLines ls => exact absurd hok (by simp)
      | text xml =>
        dsimp only at hok
        cases hlm : load_model parse xml aname fns with
        | error e =>
          rw [hlm] at hok
          exact absurd hok (by simp)
        | ok ana =>
          rw [hlm] at hok
          dsimp only at hok
          by_cases htr : trials > 0
          · rw [if_pos htr] at hok
            cases hgen : generate ana fns trials reg lhsFn with
            | error e =>
              rw [hgen] at hok
              exact absurd hok (by simp)
            | ok wc =>
              obtain ⟨writes, cache⟩ := wc
              rw [hgen] at hok
              dsimp only at hok
              rw [Except.ok.injEq, Prod.mk.injEq] at hok
              obtain ⟨hst, hfs⟩ := hok
              exact ⟨by rw [← hst], ⟨writes, hfs.symm⟩⟩
          · rw [if_neg htr] at hok
            rw [Except.ok.injEq, Prod.mk.injEq] at hok
            obtain ⟨hst, hfs⟩ := hok
            exact ⟨by rw [← hst], ⟨[], hfs.symm⟩⟩

/-- C6.  Simulation.new on an existing path: without overwrite it raises
exactly the McsUserError of simulation.py line 300 (and, the embedding
being pure, returns no changed filesystem — the directory is untouched);
with overwrite it removes the prior contents and recreates the directory
(every surviving file under sim_dir is one of the fresh writes), writes
the cached merged model template, and writes metadata.json with the
analysis name, trial count and field names. -/
theorem simulation_new_overwrite (parse : ParseFn) (lhsFn : LhsFn) (reg : Registry)
    (merge : List String → Except Err String) (fs : FS) (sim_dir : String)
    (model_files : List String) (analysis_name : String) (trials : Nat)
    (field_names : Option (List String)) (hex : FS.lexists fs sim_dir = true) :
    (Simulation.new parse lhsFn reg merge fs sim_dir model_files analysis_name trials
        field_names false
      = .error (.user ("Directory '" ++ sim_dir ++ "' already exists. Use "
          ++ "Simulation.new(sim_dir, overwrite=True) to replace it.")))
  ∧ (∀ st fs', Simulation.new parse lhsFn reg merge fs sim_dir model_files analysis_name
        trials field_names true = .ok (st, fs') →
      ((∃ merged, merge model_files = .ok merged
          ∧ FS.readFile fs' (model_file_path sim_dir) = some (.text merged))
        ∧ FS.readFile fs' (metadata_path sim_dir)
            = some (.metaJson (MetaData.mk analysis_name trials st.field_names))
        ∧ FS.isDir fs' sim_dir = true
        ∧ ∀ p, isUnder sim_dir p = true → (FS.readFile fs' p).isSome →
            p = model_file_path sim_dir ∨ p = metadata_path sim_dir
            ∨ ∃ fn, p = trial_data_path sim_dir fn)) := by
  constructor
  · unfold Simulation.new
    rw [if_pos ⟨hex, by simp⟩]
  · intro st fs' hok
    unfold Simulation.new at hok
    rw [if_neg (by simp)] at hok
    rw [if_pos hex] at hok
    cases hm : merge model_files with
    | error e =>
      rw [hm] at hok
      exact absurd hok (by simp)
    | ok merged =>
      rw [hm] at hok
      dsimp only at hok
      cases hp : parse merged none none with
      | error e =>
        rw [hp] at hok
        exact absurd hok (by simp)
      | ok m =>
        rw [hp] at hok
        dsimp only at hok
        cases hga : get_analysis m analysis_name with
        | none =>
          rw [hga] at hok
          exact absurd hok (by simp)
        | some ana =>
          rw [hga] at hok
          dsimp only at hok
          obtain ⟨hfns, writes, hfs'⟩ := init_with_name_spec parse lhsFn reg _ sim_dir
            analysis_name trials _ st fs' hok
          have hnm : ∀ fn, model_file_path sim_dir ≠ trial_data_path sim_dir fn :=
            fun fn => (trial_path_ne_model_path sim_dir fn).symm
          have hnmt : ∀ fn, metadata_path sim_dir ≠ trial_data_path sim_dir fn :=
            fun fn => (trial_path_ne_meta_path sim_dir fn).symm
          refine ⟨⟨merged, rfl, ?_⟩, ?_, ?_, ?_⟩
          · rw [hfs', readFile_applyTrialWrites sim_dir writes _ _ hnm,
              readFile_writeFile, if_neg (model_path_ne_meta_path sim_dir),
              readFile_writeFile, if_pos rfl]
          · rw [hfs', readFile_applyTrialWrites sim_dir writes _ _ hnmt,
              readFile_writeFile, if_pos rfl, ← hfns]
          · rw [hfs']
            apply isDir_applyTrialWrites
            rw [isDir_writeFile, isDir_writeFile]
            exact isDir_mkdirs_self _ sim_dir
          · intro p hunder hsome
            rw [hfs'] at hsome
            rcases readFile_applyTrialWrites_isSome sim_dir writes _ p hsome with hh | hh
            · by_cases hpm : p = metadata_path sim_dir
              · exact Or.inr (Or.inl hpm)
              · rw [readFile_writeFile, if_neg hpm] at hh
                by_cases hpo : p = model_file_path sim_dir
                · exact Or.inl hpo
                · rw [readFile_writeFile, if_neg hpo, readFile_mkdirs,
                    readFile_removeTree_under fs sim_dir p hunder] at hh
                  cases hh
            · exact Or.inr (Or.inr hh)

/-- The filesystem before re-creating the simulation directory: the
directory exists and holds a stale file. -/
def staleFs : FS := { dirs := ["sim"], files := [("sim/stale.txt", .text "old")] }

/-- The state Simulation.new builds in the concrete witness run. -/
def newSimSt : SimSt :=
  { pathname := "sim", analysis_name := "ana", trials := 0, field_names := some ["A"],
    model_xml_string := some "<merged>", analysis := some testAnalysis,
    trial_data_df := none, metadata := some (MetaData.mk "ana" 0 (some ["A"])) }

/-- The filesystem Simulation.new leaves in the concrete witness run. -/
def newFs : FS :=
  { dirs := ["sim"],
    files := [("sim/merged_model.xml", .text "<merged>"),
              ("sim/metadata.json", .metaJson (MetaData.mk "ana" 0 (some ["A"])))] }

/-- Witness for C6: on the existing directory with a stale file, the
overwrite=false call returns exactly the McsUserError; the overwrite=true
call succeeds, the stale file is gone, and the merged template and the
metadata are on disk. -/
theorem simulation_new_overwrite_witness :
    (Simulation.new scenParse (fun _ _ _ => []) [] (fun _ => .ok "<merged>") staleFs "sim"
        ["m.xml"] "ana" 0 (some ["A"]) false
      = .error (.user ("Directory 'sim' already exists. Use "
          ++ "Simulation.new(sim_dir, overwrite=True) to replace it.")))
  ∧ FS.readFile newFs (model_file_path "sim") = some (.text "<merged>")
  ∧ FS.readFile newFs (metadata_path "sim")
      = some (.metaJson (MetaData.mk "ana" 0 newSimSt.field_names))
  ∧ FS.isDir newFs "sim" = true
  ∧ FS.readFile newFs "sim/stale.txt" = none := by
  have h := simulation_new_overwrite scenParse (fun _ _ _ => []) [] (fun _ => .ok "<merged>")
    staleFs "sim" ["m.xml"] "ana" 0 (some ["A"]) (by decide)
  obtain ⟨⟨m, hmg, hmodel⟩, hmeta, hdir, -⟩ := h.2 newSimSt newFs rfl
  have hm : "<merged>" = m := by injection hmg
  rw [← hm] at hmodel
  exact ⟨h.1, hmodel, hmeta, hdir, by decide⟩

end OpgeeMcs
